import Mathlib

/-!
# Scheduled notification dispatcher (functions/index.js)

A shallow embedding of the Cloud Functions in `functions/index.js`:
`processScheduledNotifications`, `processNotification`, the three channel
senders, `logNotification` and `cleanupOldNotifications`.

The document store and the push transport are external.  They are modelled
as explicit state (`World`) together with a per-run oracle (`Faults`) that
says which awaited call rejects and with which error.  A rejected call leaves
the state as it was before the call; every write made before it stays.

Conventions:
* an absent (`undefined`) field is `none`;
* a run reads the clock once: every `Timestamp.now()` of one run is `now`;
* `update` on a document that does not exist rejects, as does `doc(undefined)`;
* one scheduler invocation starts every run before any of them settles: each
  run reads its recipient from the store as the invocation found it; the runs'
  writes are then applied run after run, in the order of the query snapshot.
-/

namespace EventCalendar

/-- Timestamps, in milliseconds since the epoch. -/
abbrev Timestamp := Nat

/-- A thrown JavaScript error: its optional `code` and its `message`. -/
structure JsError where
  code : Option String
  message : String
deriving DecidableEq

/-- The `payload` object of a notification. -/
structure Payload where
  title : Option String
  body : Option String
  eventId : Option String
deriving DecidableEq

/-- A document of `scheduled_notifications`. -/
structure Notification where
  recipientId : String
  channel : String
  payload : Payload
  eventId : Option String
  status : String
  scheduledFor : Option Timestamp
  attempts : Option Nat
  lastAttemptAt : Option Timestamp
  sentAt : Option Timestamp
  error : Option String
  updatedAt : Option Timestamp
deriving DecidableEq

/-- The data of a document of `users`; `id` is the field `id` of the data,
which is not the document id. -/
structure User where
  id : Option String
  fcmToken : Option String
  email : Option String
deriving DecidableEq

/-- A document of `email_queue`. -/
structure EmailItem where
  to_ : Option String
  subject : Option String
  body : Option String
  eventId : Option String
  templateId : String
  status : String
  createdAt : Timestamp
deriving DecidableEq

/-- A document of `in_app_notifications`. -/
structure InAppNotification where
  userId : Option String
  title : Option String
  body : Option String
  eventId : Option String
  type : String
  read : Bool
  createdAt : Timestamp
deriving DecidableEq

/-- A document of `notification_logs`. -/
structure LogEntry where
  notificationId : String
  eventId : Option String
  userId : String
  channel : String
  status : String
  error : Option String
  sentAt : Option Timestamp
  createdAt : Timestamp
deriving DecidableEq

/-- The message handed to `messaging.send`. -/
structure PushMessage where
  token : String
  title : Option String
  body : Option String
  dataEventId : Option String
  dataType : String
  clickAction : String
  androidPriority : String
  androidSound : String
  androidChannelId : String
  androidNotificationPriority : String
  apnsSound : String
  apnsBadge : Nat
  apnsContentAvailable : Bool
deriving DecidableEq

/-- The five collections, each a list of documents (keyed by document id where
the code addresses documents by id), and the trace of calls to the push
transport. -/
structure World where
  scheduled_notifications : List (String × Notification)
  users : List (String × User)
  email_queue : List EmailItem
  in_app_notifications : List InAppNotification
  notification_logs : List LogEntry
  pushed : List PushMessage
deriving DecidableEq

/-- Which awaited calls of one `processNotification` run reject, and with what
error (`none`: the call resolves). -/
structure Faults where
  usersGet : Option JsError
  messagingSend : Option JsError
  usersUpdate : Option JsError
  inAppAdd : Option JsError
  emailAdd : Option JsError
  markSent : Option JsError
  logSent : Option JsError
  markRetry : Option JsError
  markFailed : Option JsError
  logFailed : Option JsError
deriving DecidableEq

/-- The oracle under which no call rejects. -/
def Faults.none : Faults :=
  { usersGet := Option.none, messagingSend := Option.none, usersUpdate := Option.none,
    inAppAdd := Option.none, emailAdd := Option.none, markSent := Option.none,
    logSent := Option.none, markRetry := Option.none, markFailed := Option.none,
    logFailed := Option.none }

/-- The outcome of an async function: resolved or rejected, and the state left. -/
abbrev Outcome := Except JsError Unit × World

/-- The rejection of `update` on a document that does not exist. -/
def notFound (id : String) : JsError :=
  { code := some "not-found", message := "No document to update: " ++ id }

/-- The rejection of `doc(undefined)`. -/
def invalidPath : JsError :=
  { code := Option.none, message := "Value for argument documentPath is not a valid resource path" }

/-- `collection.doc(id).get()`: the data of the document, if it exists. -/
def getDoc {α : Type} (coll : List (String × α)) (id : String) : Option α :=
  match coll with
  | [] => Option.none
  | d :: rest => if d.1 = id then some d.2 else getDoc rest id

/-- `collection.doc(id).update(..)`: rejects on a fault or a missing document,
otherwise rewrites the document with `g`. -/
def updateDoc {α : Type} (fault : Option JsError) (coll : List (String × α)) (id : String)
    (g : α → α) : Except JsError (List (String × α)) :=
  match fault with
  | some e => .error e
  | Option.none =>
    match getDoc coll id with
    | Option.none => .error (notFound id)
    | some _ => .ok (coll.map fun d => if d.1 = id then (d.1, g d.2) else d)

/-- The document written by `sendInAppNotification`. -/
def inAppRecord (now : Timestamp) (userId : Option String) (payload : Payload)
    (eventId : Option String) : InAppNotification :=
  { userId := userId, title := payload.title, body := payload.body, eventId := eventId,
    type := "event_reminder", read := false, createdAt := now }

/-- `sendInAppNotification(userId, payload, eventId)`. -/
def sendInAppNotification (f : Faults) (now : Timestamp) (userId : Option String)
    (payload : Payload) (eventId : Option String) (w : World) : Outcome :=
  match f.inAppAdd with
  | some e => (.error e, w)
  | Option.none =>
    (.ok (), { w with in_app_notifications := w.in_app_notifications ++
      [inAppRecord now userId payload eventId] })

/-- `sendEmailNotification(recipient, payload)`. -/
def sendEmailNotification (f : Faults) (now : Timestamp) (recipient : User)
    (payload : Payload) (w : World) : Outcome :=
  match f.emailAdd with
  | some e => (.error e, w)
  | Option.none =>
    (.ok (), { w with email_queue := w.email_queue ++
      [{ to_ := recipient.email, subject := payload.title, body := payload.body,
         eventId := payload.eventId, templateId := "event_reminder", status := "pending",
         createdAt := now }] })

/-- The `message` object built by `sendPushNotification`. -/
def pushMessage (token : String) (payload : Payload) : PushMessage :=
  { token := token, title := payload.title, body := payload.body,
    dataEventId := payload.eventId, dataType := "event_reminder",
    clickAction := "FLUTTER_NOTIFICATION_CLICK", androidPriority := "high",
    androidSound := "default", androidChannelId := "event_reminders",
    androidNotificationPriority := "high", apnsSound := "default", apnsBadge := 1,
    apnsContentAvailable := true }

/-- The test `error.code === "messaging/invalid-registration-token" ||
error.code === "messaging/registration-token-not-registered"`. -/
def isTokenError (error : JsError) : Bool :=
  error.code = some "messaging/invalid-registration-token" ∨
    error.code = some "messaging/registration-token-not-registered"

/-- The update `fcmToken: admin.firestore.FieldValue.delete()`. -/
def deleteToken (r : User) : User := { r with fcmToken := Option.none }

/-- The statement `db.collection("users").doc(recipient.id).update(..)` of
`sendPushNotification`. -/
def clearToken (f : Faults) (uid : Option String) (w : World) : Except JsError World :=
  match uid with
  | Option.none => .error invalidPath
  | some u =>
    match updateDoc f.usersUpdate w.users u deleteToken with
    | .error e => .error e
    | .ok us => .ok { w with users := us }

/-- `sendPushNotification(recipient, payload)`. -/
def sendPushNotification (f : Faults) (now : Timestamp) (recipient : User)
    (payload : Payload) (w : World) : Outcome :=
  match recipient.fcmToken with
  | Option.none => sendInAppNotification f now recipient.id payload payload.eventId w
  | some token =>
    if token = "" then
      sendInAppNotification f now recipient.id payload payload.eventId w
    else
      let w1 := { w with pushed := w.pushed ++ [pushMessage token payload] }
      match f.messagingSend with
      | Option.none => (.ok (), w1)
      | some error =>
        if isTokenError error then
          match clearToken f recipient.id w1 with
          | .error e => (.error e, w1)
          | .ok w2 => sendInAppNotification f now recipient.id payload payload.eventId w2
        else (.error error, w1)

/-- The document written by `logNotification`. -/
def logRecord (now : Timestamp) (notificationId : String) (data : Notification)
    (status : String) (error : Option String) : LogEntry :=
  { notificationId := notificationId, eventId := data.eventId, userId := data.recipientId,
    channel := data.channel, status := status, error := error,
    sentAt := if status = "sent" then some now else Option.none, createdAt := now }

/-- `logNotification(notificationId, data, status, error)`; `fault` is the
outcome of its one store call. -/
def logNotification (fault : Option JsError) (now : Timestamp) (notificationId : String)
    (data : Notification) (status : String) (error : Option String) (w : World) : Outcome :=
  match fault with
  | some e => (.error e, w)
  | Option.none =>
    (.ok (), { w with notification_logs := w.notification_logs ++
      [logRecord now notificationId data status error] })

/-- The `switch (data.channel)` of `processNotification`. -/
def dispatch (f : Faults) (now : Timestamp) (data : Notification) (recipient : User)
    (w : World) : Outcome :=
  if data.channel = "push" then sendPushNotification f now recipient data.payload w
  else if data.channel = "email" then sendEmailNotification f now recipient data.payload w
  else if data.channel = "in_app" then
    sendInAppNotification f now (some data.recipientId) data.payload data.eventId w
  else (.ok (), w)

/-- The update `status: "sent", sentAt, updatedAt`. -/
def markSent (now : Timestamp) (r : Notification) : Notification :=
  { r with status := "sent", sentAt := some now, updatedAt := some now }

/-- The update `attempts, lastAttemptAt, error, updatedAt` of the retry branch. -/
def markRetry (now : Timestamp) (attempts : Nat) (message : String) (r : Notification) :
    Notification :=
  { r with attempts := some attempts, lastAttemptAt := some now, error := some message,
           updatedAt := some now }

/-- The update `status: "failed", attempts, lastAttemptAt, error, updatedAt`. -/
def markFailed (now : Timestamp) (attempts : Nat) (message : String) (r : Notification) :
    Notification :=
  { r with status := "failed", attempts := some attempts, lastAttemptAt := some now,
           error := some ("Max attempts reached: " ++ message), updatedAt := some now }

/-- The `try` block of `processNotification`. -/
def processNotificationTry (f : Faults) (now : Timestamp) (notificationId : String)
    (data : Notification) (w : World) : Outcome :=
  match f.usersGet with
  | some e => (.error e, w)
  | Option.none =>
    match getDoc w.users data.recipientId with
    | Option.none =>
      (.error { code := Option.none, message := "Recipient not found: " ++ data.recipientId }, w)
    | some recipient =>
      match dispatch f now data recipient w with
      | (.error e, w1) => (.error e, w1)
      | (.ok _, w1) =>
        match updateDoc f.markSent w1.scheduled_notifications notificationId (markSent now) with
        | .error e => (.error e, w1)
        | .ok ns =>
          logNotification f.logSent now notificationId data "sent" Option.none
            { w1 with scheduled_notifications := ns }

/-- The `catch (error)` block of `processNotification`, entered in state `w`. -/
def processNotificationCatch (f : Faults) (now : Timestamp) (notificationId : String)
    (data : Notification) (error : JsError) (w : World) : Outcome :=
  let currentAttempts := data.attempts.getD 0
  let maxAttempts := 3
  if currentAttempts < maxAttempts then
    match updateDoc f.markRetry w.scheduled_notifications notificationId
        (markRetry now (currentAttempts + 1) error.message) with
    | .error e => (.error e, w)
    | .ok ns => (.error error, { w with scheduled_notifications := ns })
  else
    match updateDoc f.markFailed w.scheduled_notifications notificationId
        (markFailed now (currentAttempts + 1) error.message) with
    | .error e => (.error e, w)
    | .ok ns =>
      match logNotification f.logFailed now notificationId data "failed" (some error.message)
          { w with scheduled_notifications := ns } with
      | (.error e, w2) => (.error e, w2)
      | (.ok _, w2) => (.error error, w2)

/-- `processNotification(notificationId, data)`. -/
def processNotification (f : Faults) (now : Timestamp) (notificationId : String)
    (data : Notification) (w : World) : Outcome :=
  match processNotificationTry f now notificationId data w with
  | (.ok _, w1) => (.ok (), w1)
  | (.error error, w1) => processNotificationCatch f now notificationId data error w1

/-- The selection predicate of the scheduler query: `status == "scheduled"` and
`scheduledFor <= now` (a document without the field is not matched). -/
def isDue (now : Timestamp) (d : Notification) : Bool :=
  decide (d.status = "scheduled") &&
    (match d.scheduledFor with
     | some t => decide (t ≤ now)
     | Option.none => false)

/-- The query of `processScheduledNotifications`, with its `limit(50)`. -/
def dueQuery (now : Timestamp) (w : World) : List (String × Notification) :=
  (w.scheduled_notifications.filter fun d => isDue now d.2).take 50

/-- The value returned by `processScheduledNotifications`: `succeeded` and
`failed` are absent from the result of an empty selection. -/
structure BatchResult where
  processed : Nat
  succeeded : Option Nat
  failed : Option Nat
deriving DecidableEq

/-- The call `db.collection("users").doc(data.recipientId).get()` of
`processNotification`: rejected, or the data of the document when it exists. -/
def readRecipient (f : Faults) (data : Notification) (w : World) :
    Except JsError (Option User) :=
  match f.usersGet with
  | some e => .error e
  | Option.none => .ok (getDoc w.users data.recipientId)

/-- The `try` block of `processNotification` from the point where the read of
the recipient has settled with `recipientDoc`. -/
def processNotificationTryFrom (f : Faults) (now : Timestamp) (notificationId : String)
    (data : Notification) (recipientDoc : Except JsError (Option User)) (w : World) : Outcome :=
  match recipientDoc with
  | .error e => (.error e, w)
  | .ok Option.none =>
    (.error { code := Option.none, message := "Recipient not found: " ++ data.recipientId }, w)
  | .ok (some recipient) =>
    match dispatch f now data recipient w with
    | (.error e, w1) => (.error e, w1)
    | (.ok _, w1) =>
      match updateDoc f.markSent w1.scheduled_notifications notificationId (markSent now) with
      | .error e => (.error e, w1)
      | .ok ns =>
        logNotification f.logSent now notificationId data "sent" Option.none
          { w1 with scheduled_notifications := ns }

/-- `processNotification(notificationId, data)` from the point where the read of
the recipient has settled with `recipientDoc`. -/
def processNotificationFrom (f : Faults) (now : Timestamp) (notificationId : String)
    (data : Notification) (recipientDoc : Except JsError (Option User)) (w : World) : Outcome :=
  match processNotificationTryFrom f now notificationId data recipientDoc w with
  | (.ok _, w1) => (.ok (), w1)
  | (.error error, w1) => processNotificationCatch f now notificationId data error w1

/-- The promises of `snapshot.docs.map(processNotification)`.  The `map` starts
every run, and with it the read of its recipient, before any run settles: each
run gets the recipient as it is in `w0`, the store the invocation found, and the
data read by the query.  The writes of the runs are applied run after run, in the
order of the snapshot.  `fs` gives each document its oracle. -/
def processAll (fs : String → Faults) (now : Timestamp) (w0 : World) :
    List (String × Notification) → World → List (String × Except JsError Unit) × World
  | [], w => ([], w)
  | d :: rest, w =>
    let r := processNotificationFrom (fs d.1) now d.1 d.2 (readRecipient (fs d.1) d.2 w0) w
    let rs := processAll fs now w0 rest r.2
    ((d.1, r.1) :: rs.1, rs.2)

/-- The test `r.status === "fulfilled"` on a settled promise. -/
def isFulfilled (r : String × Except JsError Unit) : Bool :=
  match r.2 with
  | .ok _ => true
  | .error _ => false

/-- The test `r.status === "rejected"` on a settled promise. -/
def isRejected (r : String × Except JsError Unit) : Bool :=
  match r.2 with
  | .ok _ => false
  | .error _ => true

/-- `processScheduledNotifications`; `queryFault` is the outcome of the query. -/
def processScheduledNotifications (queryFault : Option JsError) (fs : String → Faults)
    (now : Timestamp) (w : World) : Except JsError BatchResult × World :=
  match queryFault with
  | some e => (.error e, w)
  | Option.none =>
    let snapshot := dueQuery now w
    if snapshot.isEmpty then
      (.ok { processed := 0, succeeded := Option.none, failed := Option.none }, w)
    else
      let results := processAll fs now w snapshot w
      (.ok { processed := snapshot.length,
             succeeded := some (results.1.filter isFulfilled).length,
             failed := some (results.1.filter isRejected).length }, results.2)

/-- Thirty days, in milliseconds. -/
def thirtyDays : Nat := 30 * 24 * 60 * 60 * 1000

/-- The selection predicate of the cleanup query: `status in ["sent", "failed",
"cancelled"]` and `updatedAt < now - 30 days`. -/
def isExpired (now : Timestamp) (d : Notification) : Bool :=
  (decide (d.status = "sent") || decide (d.status = "failed") ||
      decide (d.status = "cancelled")) &&
    (match d.updatedAt with
     | some t => decide (t < now - thirtyDays)
     | Option.none => false)

/-- The query of `cleanupOldNotifications`, with its `limit(500)`. -/
def expiredQuery (now : Timestamp) (w : World) : List (String × Notification) :=
  (w.scheduled_notifications.filter fun d => isExpired now d.2).take 500

/-- The value returned by `cleanupOldNotifications`. -/
structure CleanResult where
  cleaned : Nat
deriving DecidableEq

/-- `cleanupOldNotifications`: the query, then one batch that deletes each
selected document by its reference; `commitFault` is the outcome of the commit. -/
def cleanupOldNotifications (queryFault commitFault : Option JsError) (now : Timestamp)
    (w : World) : Except JsError CleanResult × World :=
  match queryFault with
  | some e => (.error e, w)
  | Option.none =>
    let snapshot := expiredQuery now w
    match commitFault with
    | some e => (.error e, w)
    | Option.none =>
      (.ok { cleaned := snapshot.length },
       { w with scheduled_notifications :=
          w.scheduled_notifications.filter fun d => !(snapshot.any fun s => decide (s.1 = d.1)) })

/-- One scheduler tick seen from one notification: it is processed, with the
data the query reads, exactly when the query selects it. -/
def schedulerPass (id : String) (w : World) (step : Faults × Timestamp) : World :=
  match getDoc w.scheduled_notifications id with
  | Option.none => w
  | some data =>
    if isDue step.2 data then (processNotification step.1 step.2 id data w).2 else w

/-- A run history of one notification: successive scheduler ticks, each with its
own oracle and clock reading. -/
def runHistory (id : String) (w : World) (hist : List (Faults × Timestamp)) : World :=
  hist.foldl (schedulerPass id) w

/-- The number of log entries of notification `id` with the given status. -/
def logCount (id : String) (status : String) (w : World) : Nat :=
  (w.notification_logs.filter fun l =>
    decide (l.notificationId = id) && decide (l.status = status)).length

/-! ## Concrete inputs -/

/-- A due push notification that was never attempted. -/
def sampleNotification : Notification :=
  { recipientId := "u1", channel := "push",
    payload := { title := some "Quiz", body := some "Starts at nine", eventId := some "e1" },
    eventId := some "e1", status := "scheduled", scheduledFor := some 100,
    attempts := Option.none, lastAttemptAt := Option.none, sentAt := Option.none,
    error := Option.none, updatedAt := some 50 }

/-- A user with a push token whose data carries its own document id. -/
def sampleUser : User :=
  { id := some "u1", fcmToken := some "tok", email := some "u1@example.org" }

/-- A user without a push token. -/
def sampleUserNoToken : User :=
  { id := some "u1", fcmToken := Option.none, email := some "u1@example.org" }

/-- A store holding `sampleNotification` as document `n1` and `sampleUser` as
document `u1`. -/
def sampleWorld : World :=
  { scheduled_notifications := [("n1", sampleNotification)],
    users := [("u1", sampleUser)],
    email_queue := [], in_app_notifications := [], notification_logs := [], pushed := [] }

/-- A transport error that is not a token error. -/
def transportError : JsError :=
  { code := some "messaging/internal-error", message := "boom" }

/-- The transport error for a token that is no longer registered. -/
def unregisteredError : JsError :=
  { code := some "messaging/registration-token-not-registered", message := "gone" }

/-- A rejection by the store. -/
def storeError : JsError :=
  { code := some "unavailable", message := "store unavailable" }

/-- The push transport rejects with `transportError`; every store call resolves. -/
def transportDown : Faults := { Faults.none with messagingSend := some transportError }

/-- The append of the `sent` log entry rejects; everything else resolves. -/
def sentLogDown : Faults := { Faults.none with logSent := some storeError }

/-- The transport reports an unregistered token and the token-clearing update
rejects. -/
def tokenGoneUpdateDown : Faults :=
  { Faults.none with messagingSend := some unregisteredError, usersUpdate := some storeError }

/-- The transport reports an unregistered token; every store call resolves. -/
def tokenGone : Faults := { Faults.none with messagingSend := some unregisteredError }

/-- A user without a push token whose data carries an `id` that is not its
document id. -/
def sampleUserOtherId : User :=
  { id := some "u9", fcmToken := Option.none, email := Option.none }

/-- The sample store with `sampleUserOtherId` as document `u1`. -/
def otherIdWorld : World := { sampleWorld with users := [("u1", sampleUserOtherId)] }

/-- The sample store with the notification already attempted three times. -/
def thirdRetryWorld : World :=
  { sampleWorld with
    scheduled_notifications := [("n1", { sampleNotification with attempts := some 3 })] }

/-- A clock reading for the cleanup. -/
def cleanupNow : Timestamp := 3000000100

/-- A store with an expired `sent` record, an equally old `scheduled` record and
a recent `failed` record. -/
def cleanupWorld : World :=
  { scheduled_notifications :=
      [("a", { sampleNotification with status := "sent", updatedAt := some 50 }),
       ("b", { sampleNotification with updatedAt := some 50 }),
       ("c", { sampleNotification with status := "failed", updatedAt := some 3000000000 })],
    users := [], email_queue := [], in_app_notifications := [], notification_logs := [],
    pushed := [] }

/-- An in-app notification for the sample user. -/
def sampleInApp : Notification := { sampleNotification with channel := "in_app" }

/-- The rejection of `add()` for a document with an `undefined` field. -/
def undefinedFieldError : JsError :=
  { code := some "invalid-argument",
    message := "Cannot use undefined as a Firestore value (found in field userId)" }

/-- A user whose data has neither an `id` field nor a push token. -/
def sampleUserNoId : User :=
  { id := Option.none, fcmToken := Option.none, email := some "u1@example.org" }

/-- The sample store with `sampleUserNoId` as document `u1`. -/
def noIdWorld : World := { sampleWorld with users := [("u1", sampleUserNoId)] }

/-- The store rejects the in-app write for its undefined `userId`; every other
call resolves. -/
def undefinedUserIdRejected : Faults :=
  { Faults.none with inAppAdd := some undefinedFieldError }

/-- The store is unavailable for the in-app write; every other call resolves. -/
def inAppAddDown : Faults := { Faults.none with inAppAdd := some storeError }

/-- A user with a push token whose data has no `id` field. -/
def sampleUserTokenNoId : User :=
  { id := Option.none, fcmToken := some "tok", email := some "u1@example.org" }

/-- The sample store with `sampleUserTokenNoId` as document `u1`. -/
def tokenNoIdWorld : World := { sampleWorld with users := [("u1", sampleUserTokenNoId)] }

/-- A user with a push token whose data carries the `id` of another document. -/
def sampleUserTokenOtherId : User :=
  { id := some "u9", fcmToken := some "tok", email := some "u1@example.org" }

/-- The sample store with `sampleUserTokenOtherId` as document `u1` and a second
user, with its own token, as document `u9`. -/
def twoUsersWorld : World :=
  { sampleWorld with
    users := [("u1", sampleUserTokenOtherId),
              ("u9", { id := some "u9", fcmToken := some "tok9", email := Option.none })] }

/-- The transport reports an unregistered token and the store rejects the in-app
write; every other call resolves. -/
def tokenGoneInAppDown : Faults :=
  { Faults.none with messagingSend := some unregisteredError, inAppAdd := some storeError }

/-- A store with two due push notifications, `n1` and `n2`, for the one user
`u1`. -/
def sharedUserWorld : World :=
  { sampleWorld with
    scheduled_notifications := [("n1", sampleNotification), ("n2", sampleNotification)] }

/-- The oracles of one invocation on `sharedUserWorld`: for `n1` the transport
reports an unregistered token and the in-app write is rejected, for `n2` the
transport rejects with `transportError`. -/
def sharedUserFaults (id : String) : Faults :=
  if id = "n1" then tokenGoneInAppDown else transportDown

/-- The fields of document `id` the retry policy is about. -/
def recordSummary (id : String) (w : World) :
    Option (String × Option Nat × Option String × Option Timestamp) :=
  (getDoc w.scheduled_notifications id).map fun r => (r.status, r.attempts, r.error, r.sentAt)

/-- The status of document `id` and its log entries agree. -/
def LogsMatchStatus (id : String) (w : World) : Prop :=
  ∃ r, getDoc w.scheduled_notifications id = some r ∧
    ((r.status = "scheduled" ∧ logCount id "sent" w = 0 ∧ logCount id "failed" w = 0) ∨
     (r.status = "sent" ∧ logCount id "sent" w = 1 ∧ logCount id "failed" w = 0) ∨
     (r.status = "failed" ∧ logCount id "failed" w = 1 ∧ logCount id "sent" w = 0))

/-- The same notification and user documents exist in `w1` as in `w`. -/
def SameDocs (w w1 : World) : Prop :=
  (∀ k, (getDoc w1.scheduled_notifications k).isSome =
    (getDoc w.scheduled_notifications k).isSome) ∧
  (∀ k, (getDoc w1.users k).isSome = (getDoc w.users k).isSome)

/-- The step from `w` to `w1` keeps every document in existence and leaves every
notification other than `id` as it was. -/
def Touches (id : String) (w w1 : World) : Prop :=
  SameDocs w w1 ∧
  ∀ k, k ≠ id → getDoc w1.scheduled_notifications k = getDoc w.scheduled_notifications k

/-! ## Store and frame lemmas -/

theorem getDoc_map_update {α : Type} (coll : List (String × α)) (id k : String) (g : α → α) :
    getDoc (coll.map fun d => if d.1 = id then (d.1, g d.2) else d) k =
      if k = id then (getDoc coll k).map g else getDoc coll k := by
  induction coll with
  | nil => simp [getDoc]
  | cons d rest ih =>
    simp only [List.map_cons, getDoc]
    by_cases h1 : d.1 = id
    · by_cases h2 : d.1 = k
      · subst h1; subst h2; simp
      · have h3 : ¬ id = k := fun h => h2 (h1.trans h)
        simp [h1, h2, h3, ih]
    · by_cases h2 : d.1 = k
      · have h3 : ¬ k = id := fun h => h1 (h2.trans h)
        simp [h1, h2, h3]
      · simp [h1, h2, ih]

theorem updateDoc_ok {α : Type} (coll : List (String × α)) (id : String) (g : α → α) (r : α)
    (h : getDoc coll id = some r) :
    updateDoc Option.none coll id g =
      .ok (coll.map fun d => if d.1 = id then (d.1, g d.2) else d) := by
  simp [updateDoc, h]

theorem sendInApp_frame (f : Faults) (now : Timestamp) (u : Option String) (p : Payload)
    (e : Option String) (w : World) :
    (sendInAppNotification f now u p e w).2.scheduled_notifications = w.scheduled_notifications ∧
    (sendInAppNotification f now u p e w).2.notification_logs = w.notification_logs ∧
    (sendInAppNotification f now u p e w).2.users = w.users ∧
    (sendInAppNotification f now u p e w).2.pushed = w.pushed ∧
    (sendInAppNotification f now u p e w).2.email_queue = w.email_queue := by
  unfold sendInAppNotification
  cases f.inAppAdd <;> simp

theorem sendEmail_frame (f : Faults) (now : Timestamp) (rcp : User) (p : Payload) (w : World) :
    (sendEmailNotification f now rcp p w).2.scheduled_notifications = w.scheduled_notifications ∧
    (sendEmailNotification f now rcp p w).2.notification_logs = w.notification_logs ∧
    (sendEmailNotification f now rcp p w).2.users = w.users ∧
    (sendEmailNotification f now rcp p w).2.pushed = w.pushed ∧
    (sendEmailNotification f now rcp p w).2.in_app_notifications = w.in_app_notifications := by
  unfold sendEmailNotification
  cases f.emailAdd <;> simp

theorem clearToken_frame (f : Faults) (uid : Option String) (w w2 : World)
    (h : clearToken f uid w = .ok w2) :
    w2.scheduled_notifications = w.scheduled_notifications ∧
    w2.notification_logs = w.notification_logs ∧
    w2.in_app_notifications = w.in_app_notifications ∧
    w2.pushed = w.pushed ∧ w2.email_queue = w.email_queue := by
  unfold clearToken at h
  cases uid with
  | none => simp at h
  | some u =>
    simp only at h
    cases hu : updateDoc f.usersUpdate w.users u deleteToken with
    | error e => rw [hu] at h; simp at h
    | ok us => rw [hu] at h; simp at h; subst h; simp

theorem sendPush_frame (f : Faults) (now : Timestamp) (rcp : User) (p : Payload) (w : World) :
    (sendPushNotification f now rcp p w).2.scheduled_notifications = w.scheduled_notifications ∧
    (sendPushNotification f now rcp p w).2.notification_logs = w.notification_logs ∧
    (sendPushNotification f now rcp p w).2.email_queue = w.email_queue := by
  unfold sendPushNotification
  cases rcp.fcmToken with
  | none =>
    have h := sendInApp_frame f now rcp.id p p.eventId w
    exact ⟨h.1, h.2.1, h.2.2.2.2⟩
  | some token =>
    simp only
    by_cases ht : token = ""
    · have h := sendInApp_frame f now rcp.id p p.eventId w
      simp only [ht, if_true]
      exact ⟨h.1, h.2.1, h.2.2.2.2⟩
    · simp only [ht, if_false]
      cases f.messagingSend with
      | none => simp
      | some error =>
        simp only
        by_cases hte : isTokenError error = true
        · simp only [hte, if_true]
          cases hc : clearToken f rcp.id
              { w with pushed := w.pushed ++ [pushMessage token p] } with
          | error e => simp
          | ok w2 =>
            have h1 := clearToken_frame f rcp.id _ w2 hc
            have h := sendInApp_frame f now rcp.id p p.eventId w2
            simp only
            exact ⟨h.1.trans h1.1, h.2.1.trans h1.2.1, h.2.2.2.2.trans h1.2.2.2.2⟩
        · simp [hte]

theorem dispatch_frame (f : Faults) (now : Timestamp) (data : Notification) (rcp : User)
    (w : World) :
    (dispatch f now data rcp w).2.scheduled_notifications = w.scheduled_notifications ∧
    (dispatch f now data rcp w).2.notification_logs = w.notification_logs := by
  unfold dispatch
  split_ifs
  · have h := sendPush_frame f now rcp data.payload w
    exact ⟨h.1, h.2.1⟩
  · have h := sendEmail_frame f now rcp data.payload w
    exact ⟨h.1, h.2.1⟩
  · have h := sendInApp_frame f now (some data.recipientId) data.payload data.eventId w
    exact ⟨h.1, h.2.1⟩
  · simp

theorem updateDoc_cases {α : Type} (fault : Option JsError) (coll : List (String × α))
    (id : String) (g : α → α) :
    (∃ e, updateDoc fault coll id g = .error e) ∨
    (∃ r, fault = Option.none ∧ getDoc coll id = some r ∧
      updateDoc fault coll id g = .ok (coll.map fun d => if d.1 = id then (d.1, g d.2) else d)) := by
  unfold updateDoc
  cases fault with
  | some e => exact Or.inl ⟨e, rfl⟩
  | none =>
    cases h : getDoc coll id with
    | none => exact Or.inl ⟨notFound id, rfl⟩
    | some r => exact Or.inr ⟨r, rfl, rfl, rfl⟩

theorem logCount_append (id s : String) (w : World) (l : LogEntry) :
    logCount id s { w with notification_logs := w.notification_logs ++ [l] } =
      logCount id s w + if l.notificationId = id ∧ l.status = s then 1 else 0 := by
  unfold logCount
  by_cases h : l.notificationId = id ∧ l.status = s
  · simp [List.filter_append, List.filter_cons, h]
  · rw [if_neg h]
    have : (decide (l.notificationId = id) && decide (l.status = s)) = false := by
      simpa using h
    simp [List.filter_append, List.filter_cons, this]

theorem processNotificationTry_cases (f : Faults) (now : Timestamp) (id : String)
    (data : Notification) (w : World) :
    (∃ e, (processNotificationTry f now id data w).1 = .error e ∧
      (processNotificationTry f now id data w).2.scheduled_notifications =
        w.scheduled_notifications ∧
      (processNotificationTry f now id data w).2.notification_logs = w.notification_logs) ∨
    (∃ r, getDoc w.scheduled_notifications id = some r ∧
      (processNotificationTry f now id data w).2.scheduled_notifications =
        (w.scheduled_notifications.map fun d => if d.1 = id then (d.1, markSent now d.2) else d) ∧
      ((f.logSent = Option.none ∧ (processNotificationTry f now id data w).1 = .ok () ∧
          (processNotificationTry f now id data w).2.notification_logs =
            w.notification_logs ++ [logRecord now id data "sent" Option.none]) ∨
       (∃ e, f.logSent = some e ∧ (processNotificationTry f now id data w).1 = .error e ∧
          (processNotificationTry f now id data w).2.notification_logs = w.notification_logs))) := by
  unfold processNotificationTry
  cases f.usersGet with
  | some e => exact Or.inl ⟨e, rfl, rfl, rfl⟩
  | none =>
    simp only
    cases getDoc w.users data.recipientId with
    | none => exact Or.inl ⟨_, rfl, rfl, rfl⟩
    | some recipient =>
      simp only
      have hfr := dispatch_frame f now data recipient w
      cases hd : dispatch f now data recipient w with
      | mk res w1 =>
        rw [hd] at hfr
        simp only at hfr
        cases res with
        | error e => exact Or.inl ⟨e, rfl, hfr.1, hfr.2⟩
        | ok u =>
          simp only
          rcases updateDoc_cases f.markSent w1.scheduled_notifications id (markSent now) with
            ⟨e, he⟩ | ⟨r, _, hr, hu⟩
          · rw [he]; exact Or.inl ⟨e, rfl, hfr.1, hfr.2⟩
          · rw [hu]
            simp only [logNotification]
            refine Or.inr ⟨r, by rw [← hfr.1]; exact hr, ?_⟩
            cases hl : f.logSent with
            | none => simp [hfr.1, hfr.2]
            | some e => simp [hfr.1, hfr.2]

theorem processNotificationCatch_cases (f : Faults) (now : Timestamp) (id : String)
    (data : Notification) (err : JsError) (w : World) :
    (∃ e, (processNotificationCatch f now id data err w).1 = .error e) ∧
    ((processNotificationCatch f now id data err w).2 = w ∨
     (data.attempts.getD 0 < 3 ∧
      (processNotificationCatch f now id data err w).2.scheduled_notifications =
        (w.scheduled_notifications.map fun d =>
          if d.1 = id then (d.1, markRetry now (data.attempts.getD 0 + 1) err.message d.2)
          else d) ∧
      (processNotificationCatch f now id data err w).2.notification_logs =
        w.notification_logs) ∨
     (¬ data.attempts.getD 0 < 3 ∧
      (processNotificationCatch f now id data err w).2.scheduled_notifications =
        (w.scheduled_notifications.map fun d =>
          if d.1 = id then (d.1, markFailed now (data.attempts.getD 0 + 1) err.message d.2)
          else d) ∧
      ((f.logFailed = Option.none ∧
        (processNotificationCatch f now id data err w).2.notification_logs =
          w.notification_logs ++ [logRecord now id data "failed" (some err.message)]) ∨
       (f.logFailed ≠ Option.none ∧
        (processNotificationCatch f now id data err w).2.notification_logs =
          w.notification_logs)))) := by
  unfold processNotificationCatch
  simp only
  by_cases ha : data.attempts.getD 0 < 3
  · simp only [ha, if_true]
    rcases updateDoc_cases f.markRetry w.scheduled_notifications id
        (markRetry now (data.attempts.getD 0 + 1) err.message) with ⟨e, he⟩ | ⟨r, _, _, hu⟩
    · rw [he]; exact ⟨⟨e, rfl⟩, Or.inl rfl⟩
    · rw [hu]; exact ⟨⟨err, rfl⟩, Or.inr (Or.inl ⟨trivial, rfl, rfl⟩)⟩
  · simp only [ha, if_false]
    rcases updateDoc_cases f.markFailed w.scheduled_notifications id
        (markFailed now (data.attempts.getD 0 + 1) err.message) with ⟨e, he⟩ | ⟨r, _, _, hu⟩
    · rw [he]; exact ⟨⟨e, rfl⟩, Or.inl rfl⟩
    · rw [hu]
      simp only [logNotification]
      cases hl : f.logFailed with
      | none => exact ⟨⟨err, rfl⟩, Or.inr (Or.inr ⟨not_false, rfl, Or.inl ⟨rfl, rfl⟩⟩)⟩
      | some e =>
        exact ⟨⟨e, rfl⟩, Or.inr (Or.inr ⟨not_false, rfl, Or.inr ⟨by simp, rfl⟩⟩)⟩

theorem logCount_congr (id s : String) (w w1 : World)
    (h : w1.notification_logs = w.notification_logs) : logCount id s w1 = logCount id s w := by
  unfold logCount; rw [h]

theorem logCount_of_append (id s : String) (w w1 : World) (l : LogEntry)
    (h : w1.notification_logs = w.notification_logs ++ [l]) :
    logCount id s w1 = logCount id s w + if l.notificationId = id ∧ l.status = s then 1 else 0 := by
  rw [← logCount_append id s w l]
  exact logCount_congr id s _ w1 (by simp [h])

theorem processNotification_of_try_error (f : Faults) (now : Timestamp) (id : String)
    (data : Notification) (w : World) (e : JsError)
    (h : (processNotificationTry f now id data w).1 = .error e) :
    processNotification f now id data w =
      processNotificationCatch f now id data e (processNotificationTry f now id data w).2 := by
  unfold processNotification
  cases ht : processNotificationTry f now id data w with
  | mk res w1 =>
    rw [ht] at h
    simp only at h
    subst h
    rfl

theorem processNotification_of_try_ok (f : Faults) (now : Timestamp) (id : String)
    (data : Notification) (w : World)
    (h : (processNotificationTry f now id data w).1 = .ok ()) :
    processNotification f now id data w =
      (.ok (), (processNotificationTry f now id data w).2) := by
  unfold processNotification
  cases ht : processNotificationTry f now id data w with
  | mk res w1 =>
    rw [ht] at h
    simp only at h
    subst h
    rfl

theorem isDue_status (now : Timestamp) (d : Notification) (h : isDue now d = true) :
    d.status = "scheduled" ∧ ∃ t, d.scheduledFor = some t ∧ t ≤ now := by
  unfold isDue at h
  cases hs : d.scheduledFor with
  | none => rw [hs] at h; simp at h
  | some t => rw [hs] at h; simp at h; exact ⟨h.1, t, rfl, h.2⟩

theorem schedulerPass_keeps (id : String) (w : World) (step : Faults × Timestamp)
    (hs : step.1.logSent = Option.none) (hf : step.1.logFailed = Option.none)
    (h : LogsMatchStatus id w) : LogsMatchStatus id (schedulerPass id w step) := by
  obtain ⟨r, hr, hc⟩ := h
  unfold schedulerPass
  rw [hr]
  simp only
  by_cases hdue : isDue step.2 r = true
  swap
  · rw [if_neg hdue]; exact ⟨r, hr, hc⟩
  rw [if_pos hdue]
  have hsched := (isDue_status _ _ hdue).1
  have h0 : logCount id "sent" w = 0 ∧ logCount id "failed" w = 0 := by
    rcases hc with ⟨_, a, b⟩ | ⟨c, _, _⟩ | ⟨c, _, _⟩
    · exact ⟨a, b⟩
    · rw [hsched] at c; exact absurd c (by decide)
    · rw [hsched] at c; exact absurd c (by decide)
  rcases processNotificationTry_cases step.1 step.2 id r w with
    ⟨e, he, hsn, hlg⟩ | ⟨r1, hr1, hsn, ⟨_, hok, hlg⟩ | ⟨e, hne, _, _⟩⟩
  · rw [processNotification_of_try_error _ _ _ _ _ e he]
    have hcc := (processNotificationCatch_cases step.1 step.2 id r e
      (processNotificationTry step.1 step.2 id r w).2).2
    rcases hcc with hsame | ⟨_, hsn2, hlg2⟩ | ⟨_, hsn2, ⟨_, hlg2⟩ | ⟨hne, _⟩⟩
    · rw [hsame]
      refine ⟨r, by rw [hsn]; exact hr, Or.inl ⟨hsched, ?_, ?_⟩⟩
      · rw [logCount_congr _ _ w _ hlg]; exact h0.1
      · rw [logCount_congr _ _ w _ hlg]; exact h0.2
    · refine ⟨markRetry step.2 (r.attempts.getD 0 + 1) e.message r, ?_, Or.inl ⟨hsched, ?_, ?_⟩⟩
      · rw [hsn2, hsn, getDoc_map_update, if_pos rfl, hr]; rfl
      · rw [logCount_congr _ _ w _ (hlg2.trans hlg)]; exact h0.1
      · rw [logCount_congr _ _ w _ (hlg2.trans hlg)]; exact h0.2
    · refine ⟨markFailed step.2 (r.attempts.getD 0 + 1) e.message r, ?_,
        Or.inr (Or.inr ⟨rfl, ?_, ?_⟩)⟩
      · rw [hsn2, hsn, getDoc_map_update, if_pos rfl, hr]; rfl
      · rw [logCount_of_append _ _ _ _ _ hlg2, logCount_congr _ _ w _ hlg, h0.2]
        simp [logRecord]
      · rw [logCount_of_append _ _ _ _ _ hlg2, logCount_congr _ _ w _ hlg, h0.1]
        simp [logRecord]
    · exact absurd hf hne
  · rw [processNotification_of_try_ok _ _ _ _ _ hok]
    refine ⟨markSent step.2 r, ?_, Or.inr (Or.inl ⟨rfl, ?_, ?_⟩)⟩
    · simp only []
      rw [hsn, getDoc_map_update, if_pos rfl, hr]; rfl
    · rw [logCount_of_append _ _ _ _ _ hlg, h0.1]
      simp [logRecord]
    · rw [logCount_of_append _ _ _ _ _ hlg, h0.2]
      simp [logRecord]
  · rw [hs] at hne; exact absurd hne (by simp)

theorem runHistory_keeps (id : String) (hist : List (Faults × Timestamp)) :
    ∀ w : World, LogsMatchStatus id w →
      (∀ step ∈ hist, step.1.logSent = Option.none ∧ step.1.logFailed = Option.none) →
      LogsMatchStatus id (runHistory id w hist) := by
  induction hist with
  | nil => intro w h _; exact h
  | cons step rest ih =>
    intro w h hf
    have h1 := hf step (List.mem_cons_self _ _)
    exact ih (schedulerPass id w step) (schedulerPass_keeps id w step h1.1 h1.2 h)
      (fun s hs => hf s (List.mem_cons_of_mem _ hs))

theorem retry_pass_appends_nothing (f : Faults) (now : Timestamp) (id : String)
    (data : Notification) (w : World) (e : JsError) (r1 : Notification)
    (herr : (processNotification f now id data w).1 = .error e)
    (hr1 : getDoc (processNotification f now id data w).2.scheduled_notifications id = some r1)
    (hs : r1.status = "scheduled") :
    (processNotification f now id data w).2.notification_logs = w.notification_logs := by
  rcases processNotificationTry_cases f now id data w with
    ⟨e1, he, hsn, hlg⟩ | ⟨r, hr, hsn, ⟨_, hok, _⟩ | ⟨e1, _, he, hlg⟩⟩
  · rw [processNotification_of_try_error _ _ _ _ _ e1 he] at hr1 ⊢
    rcases (processNotificationCatch_cases f now id data e1
      (processNotificationTry f now id data w).2).2 with
      hsame | ⟨_, _, hlg2⟩ | ⟨_, hsn2, _⟩
    · rw [hsame]; exact hlg
    · exact hlg2.trans hlg
    · rw [hsn2, getDoc_map_update, if_pos rfl] at hr1
      cases hg : getDoc (processNotificationTry f now id data w).2.scheduled_notifications id with
      | none => rw [hg] at hr1; simp at hr1
      | some r0 =>
        rw [hg] at hr1
        simp only [Option.map, Option.some.injEq] at hr1
        rw [← hr1] at hs
        exact absurd hs (by simp [markFailed])
  · rw [processNotification_of_try_ok _ _ _ _ _ hok] at herr
    simp at herr
  · rw [processNotification_of_try_error _ _ _ _ _ e1 he] at hr1 ⊢
    have hsent : ∃ r0, getDoc (processNotificationTry f now id data w).2.scheduled_notifications id
        = some r0 ∧ r0.status = "sent" := by
      refine ⟨markSent now r, ?_, rfl⟩
      rw [hsn, getDoc_map_update, if_pos rfl, hr]; rfl
    obtain ⟨r0, hg, hst⟩ := hsent
    exfalso
    rcases (processNotificationCatch_cases f now id data e1
      (processNotificationTry f now id data w).2).2 with
      hsame | ⟨_, hsn2, _⟩ | ⟨_, hsn2, _⟩
    · rw [hsame, hg] at hr1
      simp only [Option.some.injEq] at hr1
      rw [← hr1, hst] at hs
      exact absurd hs (by decide)
    · rw [hsn2, getDoc_map_update, if_pos rfl, hg] at hr1
      simp only [Option.map, Option.some.injEq] at hr1
      rw [← hr1] at hs
      simp only [markRetry] at hs
      rw [hst] at hs
      exact absurd hs (by decide)
    · rw [hsn2, getDoc_map_update, if_pos rfl, hg] at hr1
      simp only [Option.map, Option.some.injEq] at hr1
      rw [← hr1] at hs
      exact absurd hs (by simp [markFailed])

theorem isTokenError_iff (error : JsError) :
    isTokenError error = true ↔
      (error.code = some "messaging/invalid-registration-token" ∨
        error.code = some "messaging/registration-token-not-registered") := by
  simp [isTokenError]

theorem sendInApp_ok (f : Faults) (now : Timestamp) (u : Option String) (p : Payload)
    (e : Option String) (w : World) (h : f.inAppAdd = Option.none) :
    sendInAppNotification f now u p e w =
      (.ok (), { w with in_app_notifications :=
        w.in_app_notifications ++ [inAppRecord now u p e] }) := by
  simp [sendInAppNotification, h]

theorem sendInApp_cases (f : Faults) (now : Timestamp) (u : Option String) (p : Payload)
    (e : Option String) (w : World) :
    (sendInAppNotification f now u p e w).2.in_app_notifications = w.in_app_notifications ∨
    (sendInAppNotification f now u p e w).2.in_app_notifications =
      w.in_app_notifications ++ [inAppRecord now u p e] := by
  unfold sendInAppNotification
  cases f.inAppAdd <;> simp

theorem sendPush_no_token (f : Faults) (now : Timestamp) (rcp : User) (p : Payload) (w : World)
    (h : rcp.fcmToken = Option.none ∨ rcp.fcmToken = some "") :
    sendPushNotification f now rcp p w = sendInAppNotification f now rcp.id p p.eventId w := by
  unfold sendPushNotification
  rcases h with h | h
  · rw [h]
  · rw [h]; simp

theorem sendPush_token (f : Faults) (now : Timestamp) (rcp : User) (p : Payload) (w : World)
    (token : String) (h : rcp.fcmToken = some token) (hne : token ≠ "") :
    sendPushNotification f now rcp p w =
      match f.messagingSend with
      | Option.none => (.ok (), { w with pushed := w.pushed ++ [pushMessage token p] })
      | some error =>
        if isTokenError error then
          match clearToken f rcp.id { w with pushed := w.pushed ++ [pushMessage token p] } with
          | .error e => (.error e, { w with pushed := w.pushed ++ [pushMessage token p] })
          | .ok w2 => sendInAppNotification f now rcp.id p p.eventId w2
        else (.error error, { w with pushed := w.pushed ++ [pushMessage token p] }) := by
  unfold sendPushNotification
  rw [h]
  simp only [hne, if_false]

theorem clearToken_ok (f : Faults) (u : String) (ru : User) (w : World)
    (hf : f.usersUpdate = Option.none) (hu : getDoc w.users u = some ru) :
    clearToken f (some u) w = .ok { w with users :=
      (w.users.map fun d => if d.1 = u then (d.1, deleteToken d.2) else d) } := by
  unfold clearToken
  simp only [hf, updateDoc_ok _ _ _ ru hu]

theorem clearToken_cases (f : Faults) (uid : Option String) (w : World) :
    (∃ e, clearToken f uid w = .error e) ∨
    (∃ u, uid = some u ∧ clearToken f uid w = .ok { w with users :=
      (w.users.map fun d => if d.1 = u then (d.1, deleteToken d.2) else d) }) := by
  unfold clearToken
  cases uid with
  | none => exact Or.inl ⟨_, rfl⟩
  | some u =>
    simp only
    rcases updateDoc_cases f.usersUpdate w.users u deleteToken
      with ⟨e, he⟩ | ⟨r, _, _, hu⟩
    · rw [he]; exact Or.inl ⟨e, rfl⟩
    · rw [hu]; exact Or.inr ⟨u, rfl, rfl⟩

theorem clearToken_fault (f : Faults) (uid : Option String) (w : World) (e : JsError)
    (hf : f.usersUpdate = some e) :
    (∃ e1, clearToken f uid w = .error e1) ∧ (uid ≠ Option.none → clearToken f uid w = .error e) := by
  unfold clearToken
  cases uid with
  | none => exact ⟨⟨_, rfl⟩, fun h => absurd rfl h⟩
  | some u => simp [updateDoc, hf]

theorem processNotificationCatch_frame (f : Faults) (now : Timestamp) (id : String)
    (data : Notification) (err : JsError) (w : World) :
    (processNotificationCatch f now id data err w).2.users = w.users ∧
    (processNotificationCatch f now id data err w).2.in_app_notifications =
      w.in_app_notifications ∧
    (processNotificationCatch f now id data err w).2.email_queue = w.email_queue ∧
    (processNotificationCatch f now id data err w).2.pushed = w.pushed := by
  unfold processNotificationCatch
  simp only
  by_cases ha : data.attempts.getD 0 < 3
  · simp only [ha, if_true]
    rcases updateDoc_cases f.markRetry w.scheduled_notifications id
        (markRetry now (data.attempts.getD 0 + 1) err.message) with ⟨e, he⟩ | ⟨r, _, _, hu⟩
    · rw [he]; exact ⟨rfl, rfl, rfl, rfl⟩
    · rw [hu]; exact ⟨rfl, rfl, rfl, rfl⟩
  · simp only [ha, if_false]
    rcases updateDoc_cases f.markFailed w.scheduled_notifications id
        (markFailed now (data.attempts.getD 0 + 1) err.message) with ⟨e, he⟩ | ⟨r, _, _, hu⟩
    · rw [he]; exact ⟨rfl, rfl, rfl, rfl⟩
    · rw [hu]
      simp only [logNotification]
      cases f.logFailed <;> exact ⟨rfl, rfl, rfl, rfl⟩

theorem processNotificationTry_frame (f : Faults) (now : Timestamp) (id : String)
    (data : Notification) (recipient : User) (w : World)
    (hget : f.usersGet = Option.none)
    (hrec : getDoc w.users data.recipientId = some recipient) :
    (processNotificationTry f now id data w).2.users = (dispatch f now data recipient w).2.users ∧
    (processNotificationTry f now id data w).2.in_app_notifications =
      (dispatch f now data recipient w).2.in_app_notifications ∧
    (processNotificationTry f now id data w).2.email_queue =
      (dispatch f now data recipient w).2.email_queue ∧
    (processNotificationTry f now id data w).2.pushed =
      (dispatch f now data recipient w).2.pushed := by
  unfold processNotificationTry
  rw [hget]
  simp only [hrec]
  cases hd : dispatch f now data recipient w with
  | mk res w1 =>
    cases res with
    | error e => exact ⟨rfl, rfl, rfl, rfl⟩
    | ok u =>
      simp only
      rcases updateDoc_cases f.markSent w1.scheduled_notifications id (markSent now) with
        ⟨e, he⟩ | ⟨r, _, _, hu⟩
      · rw [he]; exact ⟨rfl, rfl, rfl, rfl⟩
      · rw [hu]
        simp only [logNotification]
        cases f.logSent <;> exact ⟨rfl, rfl, rfl, rfl⟩

theorem processNotification_frame (f : Faults) (now : Timestamp) (id : String)
    (data : Notification) (recipient : User) (w : World)
    (hget : f.usersGet = Option.none)
    (hrec : getDoc w.users data.recipientId = some recipient) :
    (processNotification f now id data w).2.users = (dispatch f now data recipient w).2.users ∧
    (processNotification f now id data w).2.in_app_notifications =
      (dispatch f now data recipient w).2.in_app_notifications ∧
    (processNotification f now id data w).2.email_queue =
      (dispatch f now data recipient w).2.email_queue ∧
    (processNotification f now id data w).2.pushed =
      (dispatch f now data recipient w).2.pushed := by
  have ht := processNotificationTry_frame f now id data recipient w hget hrec
  cases hres : (processNotificationTry f now id data w).1 with
  | error e =>
    rw [processNotification_of_try_error _ _ _ _ _ e hres]
    have hc := processNotificationCatch_frame f now id data e
      (processNotificationTry f now id data w).2
    exact ⟨hc.1.trans ht.1, hc.2.1.trans ht.2.1, hc.2.2.1.trans ht.2.2.1,
      hc.2.2.2.trans ht.2.2.2⟩
  | ok u =>
    rw [processNotification_of_try_ok _ _ _ _ _ hres]
    exact ht

theorem dispatch_push (f : Faults) (now : Timestamp) (data : Notification) (rcp : User)
    (w : World) (h : data.channel = "push") :
    dispatch f now data rcp w = sendPushNotification f now rcp data.payload w := by
  unfold dispatch; rw [if_pos h]

theorem dispatch_in_app (f : Faults) (now : Timestamp) (data : Notification) (rcp : User)
    (w : World) (h : data.channel = "in_app") :
    dispatch f now data rcp w =
      sendInAppNotification f now (some data.recipientId) data.payload data.eventId w := by
  unfold dispatch
  rw [h, if_neg (by decide), if_neg (by decide), if_pos rfl]

theorem sendPush_cases (f : Faults) (now : Timestamp) (rcp : User) (p : Payload) (w : World) :
    ((sendPushNotification f now rcp p w).2.in_app_notifications = w.in_app_notifications ∨
     (sendPushNotification f now rcp p w).2.in_app_notifications =
       w.in_app_notifications ++ [inAppRecord now rcp.id p p.eventId]) ∧
    ((sendPushNotification f now rcp p w).2.users = w.users ∨
     ∃ u, rcp.id = some u ∧ (sendPushNotification f now rcp p w).2.users =
       (w.users.map fun d => if d.1 = u then (d.1, deleteToken d.2) else d)) := by
  by_cases htok : rcp.fcmToken = Option.none ∨ rcp.fcmToken = some ""
  · rw [sendPush_no_token f now rcp p w htok]
    exact ⟨sendInApp_cases f now rcp.id p p.eventId w,
      Or.inl (sendInApp_frame f now rcp.id p p.eventId w).2.2.1⟩
  · cases ht : rcp.fcmToken with
    | none => exact absurd (Or.inl ht) htok
    | some token =>
      have hne : token ≠ "" := fun h => htok (Or.inr (by rw [ht, h]))
      rw [sendPush_token f now rcp p w token ht hne]
      cases f.messagingSend with
      | none => exact ⟨Or.inl rfl, Or.inl rfl⟩
      | some error =>
        simp only
        by_cases hte : isTokenError error = true
        · rw [if_pos hte]
          rcases clearToken_cases f rcp.id
              { w with pushed := w.pushed ++ [pushMessage token p] } with ⟨e, he⟩ | ⟨u, hu, hok⟩
          · rw [he]; exact ⟨Or.inl rfl, Or.inl rfl⟩
          · rw [hok]
            simp only
            refine ⟨?_, Or.inr ⟨u, hu, ?_⟩⟩
            · exact sendInApp_cases f now rcp.id p p.eventId _
            · exact (sendInApp_frame f now rcp.id p p.eventId _).2.2.1
        · rw [if_neg hte]; exact ⟨Or.inl rfl, Or.inl rfl⟩

theorem isExpired_spec (now : Timestamp) (d : Notification) (h : isExpired now d = true) :
    (d.status = "sent" ∨ d.status = "failed" ∨ d.status = "cancelled") ∧
      ∃ t, d.updatedAt = some t ∧ t + thirtyDays < now := by
  unfold isExpired at h
  cases hu : d.updatedAt with
  | none => rw [hu] at h; simp at h
  | some t =>
    rw [hu] at h
    simp only [Bool.and_eq_true, Bool.or_eq_true, decide_eq_true_eq] at h
    have h2 : t < now - thirtyDays := h.2
    refine ⟨?_, t, rfl, Nat.lt_sub_iff_add_lt.mp h2⟩
    rcases h.1 with (h1 | h1) | h1
    · exact Or.inl h1
    · exact Or.inr (Or.inl h1)
    · exact Or.inr (Or.inr h1)

theorem mem_expiredQuery (now : Timestamp) (w : World) (d : String × Notification)
    (h : d ∈ expiredQuery now w) :
    d ∈ w.scheduled_notifications ∧ isExpired now d.2 = true := by
  unfold expiredQuery at h
  have h1 := List.mem_of_mem_take h
  rw [List.mem_filter] at h1
  exact h1

theorem mem_dueQuery (now : Timestamp) (w : World) (d : String × Notification)
    (h : d ∈ dueQuery now w) :
    d ∈ w.scheduled_notifications ∧ isDue now d.2 = true := by
  unfold dueQuery at h
  have h1 := List.mem_of_mem_take h
  rw [List.mem_filter] at h1
  exact h1

theorem any_key_iff (del : List (String × Notification)) (k : String) :
    (del.any fun s => decide (s.1 = k)) = true ↔ ∃ s ∈ del, s.1 = k := by
  simp [List.any_eq_true]

theorem mem_after_delete (coll del : List (String × Notification))
    (hnd : (coll.map Prod.fst).Nodup) (hsub : ∀ s ∈ del, s ∈ coll) (d : String × Notification) :
    d ∈ (coll.filter fun d => !(del.any fun s => decide (s.1 = d.1))) ↔ d ∈ coll ∧ d ∉ del := by
  rw [List.mem_filter]
  constructor
  · rintro ⟨hd, hq⟩
    refine ⟨hd, fun hdel => ?_⟩
    have : (del.any fun s => decide (s.1 = d.1)) = true :=
      (any_key_iff del d.1).mpr ⟨d, hdel, rfl⟩
    rw [this] at hq
    simp at hq
  · rintro ⟨hd, hnot⟩
    refine ⟨hd, ?_⟩
    cases hq : (del.any fun s => decide (s.1 = d.1)) with
    | false => rfl
    | true =>
      obtain ⟨s, hs, hk⟩ := (any_key_iff del d.1).mp hq
      have : s = d := List.inj_on_of_nodup_map hnd (hsub s hs) hd hk
      exact absurd (this ▸ hs) hnot

theorem length_after_delete (coll del : List (String × Notification))
    (hnd : (coll.map Prod.fst).Nodup) (hsub : del.Sublist coll) :
    (coll.filter fun d => !(del.any fun s => decide (s.1 = d.1))).length + del.length =
      coll.length := by
  have hc : coll.Nodup := List.Nodup.of_map _ hnd
  have hdn : del.Nodup := List.Nodup.sublist hsub hc
  have hperm : (coll.filter fun d => del.any fun s => decide (s.1 = d.1)).Perm del := by
    rw [List.perm_ext_iff_of_nodup (List.Nodup.filter _ hc) hdn]
    intro a
    rw [List.mem_filter, any_key_iff]
    constructor
    · rintro ⟨ha, s, hs, hk⟩
      have : s = a := List.inj_on_of_nodup_map hnd (hsub.subset hs) ha hk
      exact this ▸ hs
    · intro ha
      exact ⟨hsub.subset ha, a, ha, rfl⟩
  have hlen := List.length_eq_length_filter_add (l := coll)
    (fun d => del.any fun s => decide (s.1 = d.1))
  rw [hperm.length_eq] at hlen
  omega

theorem expiredQuery_sublist (now : Timestamp) (w : World) :
    (expiredQuery now w).Sublist w.scheduled_notifications :=
  (List.take_sublist _ _).trans (List.filter_sublist _)

theorem processAll_ids (fs : String → Faults) (now : Timestamp) (w0 : World)
    (l : List (String × Notification)) :
    ∀ w : World, (processAll fs now w0 l w).1.map Prod.fst = l.map Prod.fst := by
  induction l with
  | nil => intro w; rfl
  | cons d rest ih => intro w; simp [processAll, ih]

theorem settled_partition (rs : List (String × Except JsError Unit)) :
    (rs.filter isFulfilled).length + (rs.filter isRejected).length = rs.length := by
  induction rs with
  | nil => rfl
  | cons r rest ih =>
    obtain ⟨k, res⟩ := r
    cases res with
    | error e => simp [List.filter_cons, isFulfilled, isRejected]; omega
    | ok u => simp [List.filter_cons, isFulfilled, isRejected]; omega

theorem processNotification_ok_iff (f : Faults) (now : Timestamp) (id : String)
    (data : Notification) (w : World) :
    (∃ e, (processNotification f now id data w).1 = .error e) ↔
      (∃ e, (processNotificationTry f now id data w).1 = .error e) := by
  cases hres : (processNotificationTry f now id data w).1 with
  | error e =>
    rw [processNotification_of_try_error _ _ _ _ _ e hres]
    exact ⟨fun _ => ⟨e, rfl⟩, fun _ => (processNotificationCatch_cases f now id data e _).1⟩
  | ok u =>
    rw [processNotification_of_try_ok _ _ _ _ _ hres]

theorem processNotification_resolves (f : Faults) (now : Timestamp) (id : String)
    (data r : Notification) (recipient : User) (w : World)
    (hget : f.usersGet = Option.none)
    (hrec : getDoc w.users data.recipientId = some recipient)
    (hdisp : (dispatch f now data recipient w).1 = .ok ())
    (hmark : f.markSent = Option.none) (hlog : f.logSent = Option.none)
    (hr : getDoc w.scheduled_notifications id = some r) :
    (processNotification f now id data w).1 = .ok () ∧
    getDoc (processNotification f now id data w).2.scheduled_notifications id =
      some (markSent now r) ∧
    (processNotification f now id data w).2.notification_logs =
      w.notification_logs ++ [logRecord now id data "sent" Option.none] := by
  have hfr := dispatch_frame f now data recipient w
  have hr1 : getDoc (dispatch f now data recipient w).2.scheduled_notifications id = some r := by
    rw [hfr.1]; exact hr
  have htry : processNotificationTry f now id data w =
      (.ok (), { (dispatch f now data recipient w).2 with
        scheduled_notifications := (dispatch f now data recipient w).2.scheduled_notifications.map
          (fun d => if d.1 = id then (d.1, markSent now d.2) else d),
        notification_logs := (dispatch f now data recipient w).2.notification_logs ++
          [logRecord now id data "sent" Option.none] }) := by
    unfold processNotificationTry
    rw [hget]; simp only [hrec]
    cases hd : dispatch f now data recipient w with
    | mk res w1 =>
      rw [hd] at hdisp hr1
      simp only at hdisp hr1
      subst hdisp
      simp only [hmark, updateDoc_ok _ id _ r hr1, logNotification, hlog]
  unfold processNotification
  rw [htry]
  refine ⟨rfl, ?_, ?_⟩
  · simp only []
    rw [getDoc_map_update, if_pos rfl, hr1]; rfl
  · simp [hfr.2]

theorem processNotificationTry_eq_from (f : Faults) (now : Timestamp) (id : String)
    (data : Notification) (w : World) :
    processNotificationTry f now id data w =
      processNotificationTryFrom f now id data (readRecipient f data w) w := by
  unfold processNotificationTry processNotificationTryFrom readRecipient
  cases f.usersGet with
  | some e => rfl
  | none =>
    simp only
    cases getDoc w.users data.recipientId <;> rfl

theorem processNotification_eq_from (f : Faults) (now : Timestamp) (id : String)
    (data : Notification) (w : World) :
    processNotification f now id data w =
      processNotificationFrom f now id data (readRecipient f data w) w := by
  unfold processNotification processNotificationFrom
  rw [processNotificationTry_eq_from]

theorem isSome_getDoc_map_update {α : Type} (coll : List (String × α)) (id k : String)
    (g : α → α) :
    (getDoc (coll.map fun d => if d.1 = id then (d.1, g d.2) else d) k).isSome =
      (getDoc coll k).isSome := by
  rw [getDoc_map_update]
  split
  · cases getDoc coll k <;> rfl
  · rfl

theorem getDoc_map_update_ne {α : Type} (coll : List (String × α)) (id k : String)
    (g : α → α) (h : k ≠ id) :
    getDoc (coll.map fun d => if d.1 = id then (d.1, g d.2) else d) k = getDoc coll k := by
  rw [getDoc_map_update, if_neg h]

theorem sameDocs_refl (w : World) : SameDocs w w := ⟨fun _ => rfl, fun _ => rfl⟩

theorem sameDocs_symm (w w1 : World) (h : SameDocs w w1) : SameDocs w1 w :=
  ⟨fun k => (h.1 k).symm, fun k => (h.2 k).symm⟩

theorem sameDocs_trans (w w1 w2 : World) (h : SameDocs w w1) (h1 : SameDocs w1 w2) :
    SameDocs w w2 :=
  ⟨fun k => (h1.1 k).trans (h.1 k), fun k => (h1.2 k).trans (h.2 k)⟩

theorem touches_refl (id : String) (w : World) : Touches id w w :=
  ⟨sameDocs_refl w, fun _ _ => rfl⟩

theorem touches_trans (id : String) (w w1 w2 : World) (h : Touches id w w1)
    (h1 : Touches id w1 w2) : Touches id w w2 :=
  ⟨sameDocs_trans w w1 w2 h.1 h1.1, fun k hk => (h1.2 k hk).trans (h.2 k hk)⟩

theorem touches_of_eq (id : String) (w w1 : World)
    (hn : w1.scheduled_notifications = w.scheduled_notifications)
    (hu : w1.users = w.users) : Touches id w w1 :=
  ⟨⟨fun k => by rw [hn], fun k => by rw [hu]⟩, fun k _ => by rw [hn]⟩

theorem touches_of_update (id : String) (w w1 : World) (g : Notification → Notification)
    (hn : w1.scheduled_notifications =
      (w.scheduled_notifications.map fun d => if d.1 = id then (d.1, g d.2) else d))
    (hu : w1.users = w.users) : Touches id w w1 :=
  ⟨⟨fun k => by rw [hn, isSome_getDoc_map_update], fun k => by rw [hu]⟩,
   fun k hk => by rw [hn, getDoc_map_update_ne _ _ _ _ hk]⟩

theorem touches_of_users (id u : String) (w w1 : World)
    (hn : w1.scheduled_notifications = w.scheduled_notifications)
    (hu : w1.users = (w.users.map fun d => if d.1 = u then (d.1, deleteToken d.2) else d)) :
    Touches id w w1 :=
  ⟨⟨fun k => by rw [hn], fun k => by rw [hu, isSome_getDoc_map_update]⟩,
   fun k _ => by rw [hn]⟩

theorem dispatch_users (f : Faults) (now : Timestamp) (data : Notification) (rcp : User)
    (w : World) :
    (dispatch f now data rcp w).2.users = w.users ∨
    ∃ u, (dispatch f now data rcp w).2.users =
      (w.users.map fun d => if d.1 = u then (d.1, deleteToken d.2) else d) := by
  unfold dispatch
  split_ifs
  · rcases (sendPush_cases f now rcp data.payload w).2 with h | ⟨u, _, h⟩
    · exact Or.inl h
    · exact Or.inr ⟨u, h⟩
  · exact Or.inl (sendEmail_frame f now rcp data.payload w).2.2.1
  · exact Or.inl (sendInApp_frame f now (some data.recipientId) data.payload data.eventId w).2.2.1
  · exact Or.inl rfl

theorem dispatch_touches (f : Faults) (now : Timestamp) (id : String) (data : Notification)
    (rcp : User) (w : World) : Touches id w (dispatch f now data rcp w).2 := by
  rcases dispatch_users f now data rcp w with h | ⟨u, h⟩
  · exact touches_of_eq id _ _ (dispatch_frame f now data rcp w).1 h
  · exact touches_of_users id u _ _ (dispatch_frame f now data rcp w).1 h

theorem logNotification_frame (fault : Option JsError) (now : Timestamp) (id : String)
    (data : Notification) (status : String) (error : Option String) (w : World) :
    (logNotification fault now id data status error w).2.scheduled_notifications =
      w.scheduled_notifications ∧
    (logNotification fault now id data status error w).2.users = w.users ∧
    (logNotification fault now id data status error w).1 =
      (match fault with
       | some e => .error e
       | Option.none => .ok ()) := by
  unfold logNotification
  cases fault <;> exact ⟨rfl, rfl, rfl⟩

theorem processNotificationCatch_touches (f : Faults) (now : Timestamp) (id : String)
    (data : Notification) (err : JsError) (w : World) :
    Touches id w (processNotificationCatch f now id data err w).2 := by
  have hu := (processNotificationCatch_frame f now id data err w).1
  rcases (processNotificationCatch_cases f now id data err w).2 with
    hsame | ⟨_, hsn, _⟩ | ⟨_, hsn, _⟩
  · rw [hsame]; exact touches_refl id w
  · exact touches_of_update id _ _ _ hsn hu
  · exact touches_of_update id _ _ _ hsn hu

theorem tryFrom_some (f : Faults) (now : Timestamp) (id : String) (data : Notification)
    (recipient : User) (w : World) :
    processNotificationTryFrom f now id data (.ok (some recipient)) w =
      match (dispatch f now data recipient w).1 with
      | .error e => (.error e, (dispatch f now data recipient w).2)
      | .ok _ =>
        match updateDoc f.markSent w.scheduled_notifications id (markSent now) with
        | .error e => (.error e, (dispatch f now data recipient w).2)
        | .ok ns =>
          logNotification f.logSent now id data "sent" Option.none
            { (dispatch f now data recipient w).2 with scheduled_notifications := ns } := by
  unfold processNotificationTryFrom
  simp only []
  have hfr := (dispatch_frame f now data recipient w).1
  cases hd : dispatch f now data recipient w with
  | mk res w1 =>
    rw [hd] at hfr
    simp only at hfr
    cases res with
    | error e => rfl
    | ok u => simp only [hfr]

theorem processNotificationFrom_of_error (f : Faults) (now : Timestamp) (id : String)
    (data : Notification) (rd : Except JsError (Option User)) (w : World) (e : JsError)
    (h : (processNotificationTryFrom f now id data rd w).1 = .error e) :
    processNotificationFrom f now id data rd w =
      processNotificationCatch f now id data e
        (processNotificationTryFrom f now id data rd w).2 := by
  unfold processNotificationFrom
  cases ht : processNotificationTryFrom f now id data rd w with
  | mk res w1 =>
    rw [ht] at h
    simp only at h
    subst h
    rfl

theorem processNotificationFrom_of_ok (f : Faults) (now : Timestamp) (id : String)
    (data : Notification) (rd : Except JsError (Option User)) (w : World)
    (h : (processNotificationTryFrom f now id data rd w).1 = .ok ()) :
    processNotificationFrom f now id data rd w =
      (.ok (), (processNotificationTryFrom f now id data rd w).2) := by
  unfold processNotificationFrom
  cases ht : processNotificationTryFrom f now id data rd w with
  | mk res w1 =>
    rw [ht] at h
    simp only at h
    subst h
    rfl

theorem updateDoc_sim {α : Type} (fault : Option JsError) (c c1 : List (String × α))
    (id : String) (g : α → α) (h : (getDoc c1 id).isSome = (getDoc c id).isSome) :
    (∃ e, updateDoc fault c id g = .error e ∧ updateDoc fault c1 id g = .error e) ∨
    (updateDoc fault c id g = .ok (c.map fun d => if d.1 = id then (d.1, g d.2) else d) ∧
     updateDoc fault c1 id g = .ok (c1.map fun d => if d.1 = id then (d.1, g d.2) else d)) := by
  unfold updateDoc
  cases fault with
  | some e => exact Or.inl ⟨e, rfl, rfl⟩
  | none =>
    cases hc : getDoc c id with
    | none =>
      cases hc1 : getDoc c1 id with
      | none => exact Or.inl ⟨notFound id, rfl, rfl⟩
      | some r => rw [hc, hc1] at h; simp at h
    | some r =>
      cases hc1 : getDoc c1 id with
      | none => rw [hc, hc1] at h; simp at h
      | some r1 => exact Or.inr ⟨rfl, rfl⟩

theorem clearToken_sim (f : Faults) (uid : Option String) (w w1 : World)
    (h : ∀ k, (getDoc w1.users k).isSome = (getDoc w.users k).isSome) :
    (∃ e, clearToken f uid w = .error e ∧ clearToken f uid w1 = .error e) ∨
    (∃ u, clearToken f uid w = .ok { w with users :=
        (w.users.map fun d => if d.1 = u then (d.1, deleteToken d.2) else d) } ∧
      clearToken f uid w1 = .ok { w1 with users :=
        (w1.users.map fun d => if d.1 = u then (d.1, deleteToken d.2) else d) }) := by
  unfold clearToken
  cases uid with
  | none => exact Or.inl ⟨_, rfl, rfl⟩
  | some u =>
    simp only
    rcases updateDoc_sim f.usersUpdate w.users w1.users u deleteToken (h u) with
      ⟨e, he, he1⟩ | ⟨hok, hok1⟩
    · rw [he, he1]; exact Or.inl ⟨e, rfl, rfl⟩
    · rw [hok, hok1]; exact Or.inr ⟨u, rfl, rfl⟩

theorem sendInApp_result (f : Faults) (now : Timestamp) (u : Option String) (p : Payload)
    (e : Option String) (w w1 : World) :
    (sendInAppNotification f now u p e w1).1 = (sendInAppNotification f now u p e w).1 := by
  unfold sendInAppNotification
  cases f.inAppAdd <;> rfl

theorem sendEmail_result (f : Faults) (now : Timestamp) (rcp : User) (p : Payload)
    (w w1 : World) :
    (sendEmailNotification f now rcp p w1).1 = (sendEmailNotification f now rcp p w).1 := by
  unfold sendEmailNotification
  cases f.emailAdd <;> rfl

theorem sendPush_sim (f : Faults) (now : Timestamp) (rcp : User) (p : Payload) (w w1 : World)
    (h : ∀ k, (getDoc w1.users k).isSome = (getDoc w.users k).isSome) :
    (sendPushNotification f now rcp p w1).1 = (sendPushNotification f now rcp p w).1 := by
  by_cases htok : rcp.fcmToken = Option.none ∨ rcp.fcmToken = some ""
  · rw [sendPush_no_token f now rcp p w htok, sendPush_no_token f now rcp p w1 htok]
    exact sendInApp_result f now rcp.id p p.eventId w w1
  · cases ht : rcp.fcmToken with
    | none => exact absurd (Or.inl ht) htok
    | some token =>
      have hne : token ≠ "" := fun h => htok (Or.inr (by rw [ht, h]))
      rw [sendPush_token f now rcp p w token ht hne, sendPush_token f now rcp p w1 token ht hne]
      cases f.messagingSend with
      | none => rfl
      | some error =>
        simp only
        by_cases hte : isTokenError error = true
        · rw [if_pos hte, if_pos hte]
          rcases clearToken_sim f rcp.id
              { w with pushed := w.pushed ++ [pushMessage token p] }
              { w1 with pushed := w1.pushed ++ [pushMessage token p] } h with
            ⟨e, he, he1⟩ | ⟨u, hok, hok1⟩
          · rw [he, he1]
          · rw [hok, hok1]
            exact sendInApp_result f now rcp.id p p.eventId _ _
        · rw [if_neg hte, if_neg hte]

theorem dispatch_sim (f : Faults) (now : Timestamp) (data : Notification) (rcp : User)
    (w w1 : World) (h : ∀ k, (getDoc w1.users k).isSome = (getDoc w.users k).isSome) :
    (dispatch f now data rcp w1).1 = (dispatch f now data rcp w).1 := by
  unfold dispatch
  split_ifs
  · exact sendPush_sim f now rcp data.payload w w1 h
  · exact sendEmail_result f now rcp data.payload w w1
  · exact sendInApp_result f now (some data.recipientId) data.payload data.eventId w w1
  · rfl

theorem processNotificationCatch_sim (f : Faults) (now : Timestamp) (id : String)
    (data : Notification) (err : JsError) (w w1 : World)
    (h : (getDoc w1.scheduled_notifications id).isSome =
      (getDoc w.scheduled_notifications id).isSome) :
    (processNotificationCatch f now id data err w1).1 =
      (processNotificationCatch f now id data err w).1 ∧
    (getDoc w1.scheduled_notifications id = getDoc w.scheduled_notifications id →
      getDoc (processNotificationCatch f now id data err w1).2.scheduled_notifications id =
        getDoc (processNotificationCatch f now id data err w).2.scheduled_notifications id) := by
  unfold processNotificationCatch
  simp only
  by_cases ha : data.attempts.getD 0 < 3
  · simp only [ha, if_true]
    rcases updateDoc_sim f.markRetry w.scheduled_notifications w1.scheduled_notifications id
        (markRetry now (data.attempts.getD 0 + 1) err.message) h with
      ⟨e, he, he1⟩ | ⟨hok, hok1⟩
    · rw [he, he1]; exact ⟨rfl, fun hr => hr⟩
    · rw [hok, hok1]
      refine ⟨rfl, fun hr => ?_⟩
      simp only []
      rw [getDoc_map_update, getDoc_map_update, hr]
  · simp only [ha, if_false]
    rcases updateDoc_sim f.markFailed w.scheduled_notifications w1.scheduled_notifications id
        (markFailed now (data.attempts.getD 0 + 1) err.message) h with
      ⟨e, he, he1⟩ | ⟨hok, hok1⟩
    · rw [he, he1]; exact ⟨rfl, fun hr => hr⟩
    · rw [hok, hok1]
      simp only [logNotification]
      cases f.logFailed with
      | none =>
        refine ⟨rfl, fun hr => ?_⟩
        simp only []
        rw [getDoc_map_update, getDoc_map_update, hr]
      | some e =>
        refine ⟨rfl, fun hr => ?_⟩
        simp only []
        rw [getDoc_map_update, getDoc_map_update, hr]

theorem tryFrom_touches (f : Faults) (now : Timestamp) (id : String) (data : Notification)
    (rd : Except JsError (Option User)) (w : World) :
    Touches id w (processNotificationTryFrom f now id data rd w).2 := by
  cases rd with
  | error e => exact touches_refl id w
  | ok o =>
    cases o with
    | none => exact touches_refl id w
    | some recipient =>
      rw [tryFrom_some]
      have hd := dispatch_touches f now id data recipient w
      have hfr := (dispatch_frame f now data recipient w).1
      cases (dispatch f now data recipient w).1 with
      | error e => exact hd
      | ok u =>
        simp only
        rcases updateDoc_cases f.markSent w.scheduled_notifications id (markSent now) with
          ⟨e, he⟩ | ⟨r, _, _, hok⟩
        · rw [he]; exact hd
        · rw [hok]
          simp only
          have hl := logNotification_frame f.logSent now id data "sent" Option.none
            { (dispatch f now data recipient w).2 with
              scheduled_notifications :=
                (w.scheduled_notifications.map fun d =>
                  if d.1 = id then (d.1, markSent now d.2) else d) }
          refine touches_trans id w _ _ hd (touches_of_update id _ _ (markSent now) ?_ ?_)
          · rw [hl.1, hfr]
          · rw [hl.2.1]

theorem processNotificationFrom_touches (f : Faults) (now : Timestamp) (id : String)
    (data : Notification) (rd : Except JsError (Option User)) (w : World) :
    Touches id w (processNotificationFrom f now id data rd w).2 := by
  have ht := tryFrom_touches f now id data rd w
  cases hres : (processNotificationTryFrom f now id data rd w).1 with
  | error e =>
    rw [processNotificationFrom_of_error _ _ _ _ _ _ e hres]
    exact touches_trans id w _ _ ht (processNotificationCatch_touches f now id data e _)
  | ok u =>
    rw [processNotificationFrom_of_ok _ _ _ _ _ _ hres]
    exact ht

theorem tryFrom_sim (f : Faults) (now : Timestamp) (id : String) (data : Notification)
    (rd : Except JsError (Option User)) (w w1 : World) (hs : SameDocs w w1) :
    (processNotificationTryFrom f now id data rd w1).1 =
      (processNotificationTryFrom f now id data rd w).1 ∧
    (getDoc w1.scheduled_notifications id = getDoc w.scheduled_notifications id →
      getDoc (processNotificationTryFrom f now id data rd w1).2.scheduled_notifications id =
        getDoc (processNotificationTryFrom f now id data rd w).2.scheduled_notifications id) := by
  cases rd with
  | error e => exact ⟨rfl, fun hr => hr⟩
  | ok o =>
    cases o with
    | none => exact ⟨rfl, fun hr => hr⟩
    | some recipient =>
      rw [tryFrom_some, tryFrom_some]
      have hd := dispatch_sim f now data recipient w w1 hs.2
      have hfr := (dispatch_frame f now data recipient w).1
      have hfr1 := (dispatch_frame f now data recipient w1).1
      rw [hd]
      cases (dispatch f now data recipient w).1 with
      | error e =>
        refine ⟨rfl, fun hr => ?_⟩
        simp only []
        rw [hfr, hfr1, hr]
      | ok u =>
        simp only
        rcases updateDoc_sim f.markSent w.scheduled_notifications w1.scheduled_notifications id
            (markSent now) (hs.1 id) with ⟨e, he, he1⟩ | ⟨hok, hok1⟩
        · rw [he, he1]
          refine ⟨rfl, fun hr => ?_⟩
          simp only []
          rw [hfr, hfr1, hr]
        · rw [hok, hok1]
          simp only
          have hl := logNotification_frame f.logSent now id data "sent" Option.none
            { (dispatch f now data recipient w).2 with
              scheduled_notifications :=
                (w.scheduled_notifications.map fun d =>
                  if d.1 = id then (d.1, markSent now d.2) else d) }
          have hl1 := logNotification_frame f.logSent now id data "sent" Option.none
            { (dispatch f now data recipient w1).2 with
              scheduled_notifications :=
                (w1.scheduled_notifications.map fun d =>
                  if d.1 = id then (d.1, markSent now d.2) else d) }
          refine ⟨by rw [hl.2.2, hl1.2.2], fun hr => ?_⟩
          rw [hl.1, hl1.1]
          simp only []
          rw [getDoc_map_update, getDoc_map_update, hr]

theorem processNotificationFrom_sim (f : Faults) (now : Timestamp) (id : String)
    (data : Notification) (rd : Except JsError (Option User)) (w w1 : World)
    (hs : SameDocs w w1) :
    (processNotificationFrom f now id data rd w1).1 =
      (processNotificationFrom f now id data rd w).1 ∧
    (getDoc w1.scheduled_notifications id = getDoc w.scheduled_notifications id →
      getDoc (processNotificationFrom f now id data rd w1).2.scheduled_notifications id =
        getDoc (processNotificationFrom f now id data rd w).2.scheduled_notifications id) := by
  have ht := tryFrom_sim f now id data rd w w1 hs
  have hk := (tryFrom_touches f now id data rd w).1
  have hk1 := (tryFrom_touches f now id data rd w1).1
  have hsame : SameDocs (processNotificationTryFrom f now id data rd w).2
      (processNotificationTryFrom f now id data rd w1).2 :=
    sameDocs_trans _ _ _ (sameDocs_trans _ _ _ (sameDocs_symm _ _ hk) hs) hk1
  cases hres : (processNotificationTryFrom f now id data rd w).1 with
  | error e =>
    have hres1 : (processNotificationTryFrom f now id data rd w1).1 = .error e := by
      rw [ht.1, hres]
    rw [processNotificationFrom_of_error _ _ _ _ _ _ e hres,
      processNotificationFrom_of_error _ _ _ _ _ _ e hres1]
    have hc := processNotificationCatch_sim f now id data e
      (processNotificationTryFrom f now id data rd w).2
      (processNotificationTryFrom f now id data rd w1).2 (hsame.1 id)
    exact ⟨hc.1, fun hr => hc.2 (ht.2 hr)⟩
  | ok u =>
    have hres1 : (processNotificationTryFrom f now id data rd w1).1 = .ok () := by
      rw [ht.1, hres]
    rw [processNotificationFrom_of_ok _ _ _ _ _ _ hres,
      processNotificationFrom_of_ok _ _ _ _ _ _ hres1]
    exact ⟨rfl, fun hr => ht.2 hr⟩

theorem processAll_results (fs : String → Faults) (now : Timestamp) (w0 : World)
    (l : List (String × Notification)) :
    ∀ w : World, SameDocs w0 w →
      (processAll fs now w0 l w).1 =
        l.map (fun d => (d.1, (processNotification (fs d.1) now d.1 d.2 w0).1)) ∧
      SameDocs w0 (processAll fs now w0 l w).2 := by
  induction l with
  | nil => intro w hs; exact ⟨rfl, hs⟩
  | cons d rest ih =>
    intro w hs
    have hsim := processNotificationFrom_sim (fs d.1) now d.1 d.2
      (readRecipient (fs d.1) d.2 w0) w0 w hs
    have hk := (processNotificationFrom_touches (fs d.1) now d.1 d.2
      (readRecipient (fs d.1) d.2 w0) w).1
    have hrec := ih _ (sameDocs_trans _ _ _ hs hk)
    simp only [processAll, List.map_cons]
    rw [hrec.1, hsim.1, ← processNotification_eq_from]
    exact ⟨rfl, hrec.2⟩

theorem processAll_untouched (fs : String → Faults) (now : Timestamp) (w0 : World)
    (l : List (String × Notification)) (k : String) (hk : k ∉ l.map Prod.fst) :
    ∀ w : World, getDoc (processAll fs now w0 l w).2.scheduled_notifications k =
      getDoc w.scheduled_notifications k := by
  induction l with
  | nil => intro w; rfl
  | cons d rest ih =>
    intro w
    simp only [List.map_cons, List.mem_cons, not_or] at hk
    simp only [processAll]
    rw [ih hk.2]
    exact (processNotificationFrom_touches (fs d.1) now d.1 d.2
      (readRecipient (fs d.1) d.2 w0) w).2 k hk.1

theorem processAll_records (fs : String → Faults) (now : Timestamp) (w0 : World)
    (l : List (String × Notification)) (hnd : (l.map Prod.fst).Nodup) :
    ∀ w : World, SameDocs w0 w →
      (∀ d ∈ l, getDoc w.scheduled_notifications d.1 = getDoc w0.scheduled_notifications d.1) →
      ∀ d ∈ l, getDoc (processAll fs now w0 l w).2.scheduled_notifications d.1 =
        getDoc (processNotification (fs d.1) now d.1 d.2 w0).2.scheduled_notifications d.1 := by
  induction l with
  | nil => intro w _ _ d hd; simp at hd
  | cons d rest ih =>
    intro w hs hw x hx
    simp only [List.map_cons, List.nodup_cons] at hnd
    have ht := processNotificationFrom_touches (fs d.1) now d.1 d.2
      (readRecipient (fs d.1) d.2 w0) w
    simp only [processAll]
    rcases List.mem_cons.mp hx with hxd | hxr
    · subst hxd
      rw [processAll_untouched fs now w0 rest x.1 hnd.1]
      have hsim := processNotificationFrom_sim (fs x.1) now x.1 x.2
        (readRecipient (fs x.1) x.2 w0) w0 w hs
      rw [hsim.2 (hw x (List.mem_cons_self _ _)), ← processNotification_eq_from]
    · refine ih hnd.2 _ (sameDocs_trans _ _ _ hs ht.1) ?_ x hxr
      intro y hy
      have hne : y.1 ≠ d.1 := by
        intro h
        exact hnd.1 (h ▸ List.mem_map_of_mem Prod.fst hy)
      rw [ht.2 y.1 hne]
      exact hw y (List.mem_cons_of_mem _ hy)

theorem dueQuery_sublist (now : Timestamp) (w : World) :
    (dueQuery now w).Sublist w.scheduled_notifications :=
  (List.take_sublist _ _).trans (List.filter_sublist _)

/-! ## The claims -/

/-- C1: the retry branch of `processNotification` is chosen on the attempts count
read by the query, not on the incremented one.  A notification with
`attempts = 2` whose dispatch fails is left `scheduled` with `attempts = 3`; from
`attempts` unset, three failing ticks leave it `scheduled` with no `failed` log
entry, and only the fourth marks it `failed`, with `attempts = 4`. -/
theorem processNotification_third_failure_not_final :
    recordSummary "n1" (processNotification transportDown 400 "n1"
        { sampleNotification with attempts := some 2 } sampleWorld).2 =
      some ("scheduled", some 3, some "boom", Option.none) ∧
    recordSummary "n1" (runHistory "n1" sampleWorld
        [(transportDown, 200), (transportDown, 300), (transportDown, 400)]) =
      some ("scheduled", some 3, some "boom", Option.none) ∧
    logCount "n1" "failed" (runHistory "n1" sampleWorld
        [(transportDown, 200), (transportDown, 300), (transportDown, 400)]) = 0 ∧
    recordSummary "n1" (runHistory "n1" sampleWorld
        [(transportDown, 200), (transportDown, 300), (transportDown, 400),
         (transportDown, 500)]) =
      some ("failed", some 4, some "Max attempts reached: boom", Option.none) ∧
    logCount "n1" "failed" (runHistory "n1" sampleWorld
        [(transportDown, 200), (transportDown, 300), (transportDown, 400),
         (transportDown, 500)]) = 1 := by
  refine ⟨?_, ?_, ?_, ?_, ?_⟩ <;> rfl

/-- C2: when the recipient exists, the channel dispatch resolves and the store
accepts the `sent` update and the log append, `processNotification` resolves, the
record differs from what it was only in `status = "sent"`, `sentAt` and
`updatedAt` (so `attempts` and `error` are unchanged), and the log grows by
exactly one entry, of status `sent`, carrying the notification id, the recipient
id and the channel. -/
theorem processNotification_success (f : Faults) (now : Timestamp) (id : String)
    (data r : Notification) (recipient : User) (w : World)
    (hget : f.usersGet = Option.none)
    (hrec : getDoc w.users data.recipientId = some recipient)
    (hdisp : (dispatch f now data recipient w).1 = .ok ())
    (hmark : f.markSent = Option.none) (hlog : f.logSent = Option.none)
    (hr : getDoc w.scheduled_notifications id = some r) :
    (processNotification f now id data w).1 = .ok () ∧
    getDoc (processNotification f now id data w).2.scheduled_notifications id =
      some { r with status := "sent", sentAt := some now, updatedAt := some now } ∧
    (processNotification f now id data w).2.notification_logs =
      w.notification_logs ++
        [{ notificationId := id, eventId := data.eventId, userId := data.recipientId,
           channel := data.channel, status := "sent", error := Option.none,
           sentAt := some now, createdAt := now }] := by
  have h := processNotification_resolves f now id data r recipient w hget hrec hdisp hmark hlog hr
  refine ⟨h.1, h.2.1, ?_⟩
  rw [h.2.2]
  simp [logRecord]

/-- C2, at a concrete input: the sample push notification, delivered with no
fault at time 200. -/
theorem processNotification_success_witness :
    getDoc sampleWorld.users sampleNotification.recipientId = some sampleUser ∧
    (dispatch Faults.none 200 sampleNotification sampleUser sampleWorld).1 = .ok () ∧
    (processNotification Faults.none 200 "n1" sampleNotification sampleWorld).1 = .ok () ∧
    getDoc (processNotification Faults.none 200 "n1" sampleNotification
        sampleWorld).2.scheduled_notifications "n1" =
      some { sampleNotification with
        status := "sent", sentAt := some 200, updatedAt := some 200 } :=
  ⟨rfl, rfl,
   (processNotification_success Faults.none 200 "n1" sampleNotification sampleNotification
      sampleUser sampleWorld rfl rfl rfl rfl rfl rfl).1,
   (processNotification_success Faults.none 200 "n1" sampleNotification sampleNotification
      sampleUser sampleWorld rfl rfl rfl rfl rfl rfl).2.1⟩

/-- C3: a `sent` write followed by a rejected log append is handled as a delivery
failure.  After three failed ticks the record is `scheduled` with `attempts = 3`
and `sentAt` unset; on the next tick the dispatch and the `sent` write succeed,
the log append rejects, and the record, already written as `sent`, ends with
status `failed` while `sentAt` stays set.  The same happens in one run on a
`scheduled` record whose `attempts` is 3. -/
theorem processNotification_sent_then_failed :
    recordSummary "n1" (runHistory "n1" sampleWorld
        [(transportDown, 200), (transportDown, 300), (transportDown, 400)]) =
      some ("scheduled", some 3, some "boom", Option.none) ∧
    recordSummary "n1" (processNotificationTry sentLogDown 500 "n1"
        { sampleNotification with attempts := some 3 }
        (runHistory "n1" sampleWorld
          [(transportDown, 200), (transportDown, 300), (transportDown, 400)])).2 =
      some ("sent", some 3, some "boom", some 500) ∧
    recordSummary "n1" (runHistory "n1" sampleWorld
        [(transportDown, 200), (transportDown, 300), (transportDown, 400),
         (sentLogDown, 500)]) =
      some ("failed", some 4, some "Max attempts reached: store unavailable", some 500) ∧
    recordSummary "n1" thirdRetryWorld = some ("scheduled", some 3, Option.none, Option.none) ∧
    recordSummary "n1" (processNotification sentLogDown 500 "n1"
        { sampleNotification with attempts := some 3 } thirdRetryWorld).2 =
      some ("failed", some 4, some "Max attempts reached: store unavailable", some 500) := by
  refine ⟨?_, ?_, ?_, ?_, ?_⟩ <;> rfl

/-- C4, counterexample: on the first tick the `sent` write succeeds and the log
append rejects; the record has status `sent` and there is no `sent` log entry for
it. -/
theorem sent_without_log_entry :
    recordSummary "n1" (runHistory "n1" sampleWorld [(sentLogDown, 200)]) =
      some ("sent", some 1, some "store unavailable", some 200) ∧
    logCount "n1" "sent" (runHistory "n1" sampleWorld [(sentLogDown, 200)]) = 0 := by
  refine ⟨?_, ?_⟩ <;> rfl

/-- C4, amended: over every history of scheduler ticks in which no log append
rejects, started on a `scheduled` record with no `sent` or `failed` log entry: if
the record's status is `sent` there is exactly one `sent` log entry for it, and
if it is `failed` there is exactly one `failed` entry and no `sent` entry.
Whatever the store does, a rejected run that leaves the record `scheduled`
leaves the log as it was. -/
theorem log_entries_match_status (id : String) (w : World) (r : Notification)
    (hist : List (Faults × Timestamp))
    (hr : getDoc w.scheduled_notifications id = some r) (hs : r.status = "scheduled")
    (hsent : logCount id "sent" w = 0) (hfailed : logCount id "failed" w = 0)
    (hf : ∀ step ∈ hist, step.1.logSent = Option.none ∧ step.1.logFailed = Option.none) :
    (∃ r1, getDoc (runHistory id w hist).scheduled_notifications id = some r1 ∧
      (r1.status = "sent" → logCount id "sent" (runHistory id w hist) = 1) ∧
      (r1.status = "failed" → logCount id "failed" (runHistory id w hist) = 1 ∧
        logCount id "sent" (runHistory id w hist) = 0)) ∧
    (∀ (f : Faults) (now : Timestamp) (data : Notification) (w1 : World) (e : JsError)
        (r1 : Notification),
      (processNotification f now id data w1).1 = .error e →
      getDoc (processNotification f now id data w1).2.scheduled_notifications id = some r1 →
      r1.status = "scheduled" →
      (processNotification f now id data w1).2.notification_logs = w1.notification_logs) := by
  constructor
  · obtain ⟨r1, hr1, hc⟩ :=
      runHistory_keeps id hist w ⟨r, hr, Or.inl ⟨hs, hsent, hfailed⟩⟩ hf
    refine ⟨r1, hr1, ?_, ?_⟩
    · intro h
      rcases hc with ⟨c, _, _⟩ | ⟨_, a, _⟩ | ⟨c, _, _⟩
      · rw [h] at c; exact absurd c (by decide)
      · exact a
      · rw [h] at c; exact absurd c (by decide)
    · intro h
      rcases hc with ⟨c, _, _⟩ | ⟨c, _, _⟩ | ⟨_, a, b⟩
      · rw [h] at c; exact absurd c (by decide)
      · rw [h] at c; exact absurd c (by decide)
      · exact ⟨a, b⟩
  · intro f now data w1 e r1 herr hr1 hs1
    exact retry_pass_appends_nothing f now id data w1 e r1 herr hr1 hs1

/-- C4 amended, at a concrete input: a failed tick, then a delivered one. -/
theorem log_entries_match_status_witness :
    getDoc sampleWorld.scheduled_notifications "n1" = some sampleNotification ∧
    ∃ r1, getDoc (runHistory "n1" sampleWorld
        [(transportDown, 200), (Faults.none, 300)]).scheduled_notifications "n1" = some r1 ∧
      (r1.status = "sent" → logCount "n1" "sent" (runHistory "n1" sampleWorld
        [(transportDown, 200), (Faults.none, 300)]) = 1) ∧
      (r1.status = "failed" → logCount "n1" "failed" (runHistory "n1" sampleWorld
        [(transportDown, 200), (Faults.none, 300)]) = 1 ∧
        logCount "n1" "sent" (runHistory "n1" sampleWorld
        [(transportDown, 200), (Faults.none, 300)]) = 0) :=
  ⟨rfl, (log_entries_match_status "n1" sampleWorld sampleNotification
    [(transportDown, 200), (Faults.none, 300)] rfl rfl rfl rfl
    (by
      intro step hstep
      simp only [List.mem_cons, List.mem_singleton, List.not_mem_nil, or_false] at hstep
      rcases hstep with h | h <;> (rw [h]; exact ⟨rfl, rfl⟩))).1⟩

/-- C5, counterexample: a recipient without a push token for whom the in-app
write is rejected.  For document `u1` with no `id` field in its data the write
carries an undefined `userId` and is rejected: `sendPushNotification` rejects,
no in-app record is created and the notification stays `scheduled` with one
attempt counted.  The same happens for a recipient with an `id` when the store
is unavailable for the write. -/
theorem push_without_token_rejected :
    (sendPushNotification undefinedUserIdRejected 200 sampleUserNoId
        sampleNotification.payload noIdWorld).1 = .error undefinedFieldError ∧
    (sendPushNotification undefinedUserIdRejected 200 sampleUserNoId
        sampleNotification.payload noIdWorld).2.in_app_notifications = [] ∧
    recordSummary "n1" (processNotification undefinedUserIdRejected 200 "n1"
        sampleNotification noIdWorld).2 =
      some ("scheduled", some 1,
        some "Cannot use undefined as a Firestore value (found in field userId)",
        Option.none) ∧
    (sendPushNotification inAppAddDown 200 sampleUserNoToken
        sampleNotification.payload sampleWorld).1 = .error storeError ∧
    (sendPushNotification inAppAddDown 200 sampleUserNoToken
        sampleNotification.payload sampleWorld).2.in_app_notifications = [] := by
  refine ⟨?_, ?_, ?_, ?_, ?_⟩ <;> rfl

/-- C5, amended: for a recipient without a push token (absent or empty
`fcmToken`), `sendPushNotification` hands nothing to the push transport.  When
the store accepts the in-app write it resolves and the in-app collection grows
by exactly one record, with `read = false`, and a push notification for that
recipient is then marked `sent` (the store accepting the update and the log
append).  When the store rejects the in-app write, `sendPushNotification`
rejects with the store's error and leaves the store as it was. -/
theorem push_without_token_goes_in_app (f : Faults) (now : Timestamp) (recipient : User)
    (payload : Payload) (w : World)
    (htok : recipient.fcmToken = Option.none ∨ recipient.fcmToken = some "") :
    (sendPushNotification f now recipient payload w).2.pushed = w.pushed ∧
    (f.inAppAdd = Option.none →
      (sendPushNotification f now recipient payload w).1 = .ok () ∧
      (sendPushNotification f now recipient payload w).2.in_app_notifications =
        w.in_app_notifications ++
          [inAppRecord now recipient.id payload payload.eventId] ∧
      (inAppRecord now recipient.id payload payload.eventId).read = false) ∧
    (∀ (id : String) (data r : Notification),
      data.channel = "push" → data.payload = payload →
      f.usersGet = Option.none → getDoc w.users data.recipientId = some recipient →
      f.inAppAdd = Option.none → f.markSent = Option.none → f.logSent = Option.none →
      getDoc w.scheduled_notifications id = some r →
      (processNotification f now id data w).1 = .ok () ∧
      getDoc (processNotification f now id data w).2.scheduled_notifications id =
        some { r with status := "sent", sentAt := some now, updatedAt := some now } ∧
      (processNotification f now id data w).2.pushed = w.pushed) ∧
    (∀ e, f.inAppAdd = some e →
      sendPushNotification f now recipient payload w = (.error e, w)) := by
  have hpush := sendPush_no_token f now recipient payload w htok
  refine ⟨?_, ?_, ?_, ?_⟩
  · rw [hpush]
    exact (sendInApp_frame f now recipient.id payload payload.eventId w).2.2.2.1
  · intro hadd
    rw [hpush, sendInApp_ok _ _ _ _ _ _ hadd]
    exact ⟨rfl, rfl, rfl⟩
  · intro id data r hch hpay hget hrec hadd hmark hlog hr
    have hd : dispatch f now data recipient w =
        sendInAppNotification f now recipient.id payload payload.eventId w := by
      rw [dispatch_push f now data recipient w hch, hpay, hpush]
    have hok : (dispatch f now data recipient w).1 = .ok () := by
      rw [hd, sendInApp_ok _ _ _ _ _ _ hadd]
    have h := processNotification_resolves f now id data r recipient w hget hrec hok hmark hlog hr
    refine ⟨h.1, h.2.1, ?_⟩
    rw [(processNotification_frame f now id data recipient w hget hrec).2.2.2, hd]
    exact (sendInApp_frame f now recipient.id payload payload.eventId w).2.2.2.1
  · intro e he
    rw [hpush]
    simp [sendInAppNotification, he]

/-- C5 amended, at a concrete input: the sample user without its token. -/
theorem push_without_token_goes_in_app_witness :
    (sampleUserNoToken.fcmToken = Option.none ∨ sampleUserNoToken.fcmToken = some "") ∧
    (sendPushNotification Faults.none 200 sampleUserNoToken sampleNotification.payload
      sampleWorld).2.pushed = sampleWorld.pushed ∧
    (sendPushNotification Faults.none 200 sampleUserNoToken sampleNotification.payload
      sampleWorld).1 = .ok () ∧
    (sendPushNotification Faults.none 200 sampleUserNoToken sampleNotification.payload
      sampleWorld).2.in_app_notifications =
        sampleWorld.in_app_notifications ++
          [inAppRecord 200 sampleUserNoToken.id sampleNotification.payload
            sampleNotification.payload.eventId] :=
  ⟨Or.inl rfl,
   (push_without_token_goes_in_app Faults.none 200 sampleUserNoToken
      sampleNotification.payload sampleWorld (Or.inl rfl)).1,
   ((push_without_token_goes_in_app Faults.none 200 sampleUserNoToken
      sampleNotification.payload sampleWorld (Or.inl rfl)).2.1 rfl).1,
   ((push_without_token_goes_in_app Faults.none 200 sampleUserNoToken
      sampleNotification.payload sampleWorld (Or.inl rfl)).2.1 rfl).2.1⟩

/-- C6, counterexample: the transport reports an unregistered token and every
store call is willing.  For document `u1` whose data has no `id` field,
`sendPushNotification` rejects, creates no in-app record and leaves the token in
place.  For document `u1` whose data has `id = "u9"` it resolves, but `u1`
keeps its token, the token of document `u9` is deleted and the in-app record is
addressed to `u9`. -/
theorem token_error_without_own_id :
    (sendPushNotification tokenGone 200 sampleUserTokenNoId sampleNotification.payload
        tokenNoIdWorld).1 = .error invalidPath ∧
    (sendPushNotification tokenGone 200 sampleUserTokenNoId sampleNotification.payload
        tokenNoIdWorld).2.in_app_notifications = [] ∧
    (getDoc (sendPushNotification tokenGone 200 sampleUserTokenNoId
        sampleNotification.payload tokenNoIdWorld).2.users "u1").map (fun u => u.fcmToken) =
      some (some "tok") ∧
    (sendPushNotification tokenGone 200 sampleUserTokenOtherId sampleNotification.payload
        twoUsersWorld).1 = .ok () ∧
    (getDoc (sendPushNotification tokenGone 200 sampleUserTokenOtherId
        sampleNotification.payload twoUsersWorld).2.users "u1").map (fun u => u.fcmToken) =
      some (some "tok") ∧
    (getDoc (sendPushNotification tokenGone 200 sampleUserTokenOtherId
        sampleNotification.payload twoUsersWorld).2.users "u9").map (fun u => u.fcmToken) =
      some Option.none ∧
    (sendPushNotification tokenGone 200 sampleUserTokenOtherId sampleNotification.payload
        twoUsersWorld).2.in_app_notifications =
      [inAppRecord 200 (some "u9") sampleNotification.payload (some "e1")] := by
  refine ⟨?_, ?_, ?_, ?_, ?_, ?_, ?_⟩ <;> rfl

/-- C6, amended: for a recipient with a token, the data of user document `rid`,
when the push transport rejects with `error`: `sendPushNotification` resolves
only if the error code is `messaging/invalid-registration-token` or
`messaging/registration-token-not-registered`; with such a code, the recipient
data carrying `id = rid` and the store accepting both writes, it resolves, the
token of document `rid` is deleted and the in-app collection grows by exactly
one record, addressed to `rid`; with any other code it rejects with the same
`error`, and neither the users nor the in-app collection changes. -/
theorem push_transport_error (f : Faults) (now : Timestamp) (rid : String) (recipient : User)
    (payload : Payload) (w : World) (token : String) (error : JsError)
    (hdoc : getDoc w.users rid = some recipient)
    (htok : recipient.fcmToken = some token) (hne : token ≠ "")
    (herr : f.messagingSend = some error) :
    ((sendPushNotification f now recipient payload w).1 = .ok () →
      (error.code = some "messaging/invalid-registration-token" ∨
        error.code = some "messaging/registration-token-not-registered")) ∧
    ((error.code = some "messaging/invalid-registration-token" ∨
        error.code = some "messaging/registration-token-not-registered") →
      recipient.id = some rid → f.usersUpdate = Option.none → f.inAppAdd = Option.none →
        (sendPushNotification f now recipient payload w).1 = .ok () ∧
        getDoc (sendPushNotification f now recipient payload w).2.users rid =
          some { recipient with fcmToken := Option.none } ∧
        (sendPushNotification f now recipient payload w).2.in_app_notifications =
          w.in_app_notifications ++ [inAppRecord now (some rid) payload payload.eventId]) ∧
    (¬ (error.code = some "messaging/invalid-registration-token" ∨
        error.code = some "messaging/registration-token-not-registered") →
      (sendPushNotification f now recipient payload w).1 = .error error ∧
      (sendPushNotification f now recipient payload w).2.users = w.users ∧
      (sendPushNotification f now recipient payload w).2.in_app_notifications =
        w.in_app_notifications) := by
  rw [sendPush_token f now recipient payload w token htok hne, herr]
  simp only
  refine ⟨?_, ?_, ?_⟩
  · intro hok
    by_contra hc
    have hf : isTokenError error = false := by
      rw [← Bool.not_eq_true, isTokenError_iff]; exact hc
    rw [hf] at hok
    simp at hok
  · intro hc hid hupd hadd
    rw [(isTokenError_iff error).mpr hc, if_pos rfl, hid,
      clearToken_ok f rid recipient
        { w with pushed := w.pushed ++ [pushMessage token payload] } hupd hdoc]
    simp only
    rw [sendInApp_ok _ _ _ _ _ _ hadd]
    refine ⟨rfl, ?_, rfl⟩
    simp only []
    rw [getDoc_map_update, if_pos rfl, hdoc]
    simp [deleteToken, hid]
  · intro hc
    have hf : isTokenError error = false := by
      rw [← Bool.not_eq_true, isTokenError_iff]; exact hc
    rw [hf]
    exact ⟨rfl, rfl, rfl⟩

/-- C6 amended, at a concrete input: the transport reports the token of the
sample user, whose data carries its own document id, as unregistered and the
store accepts both writes. -/
theorem push_transport_error_witness :
    getDoc sampleWorld.users "u1" = some sampleUser ∧
    sampleUser.fcmToken = some "tok" ∧ tokenGone.messagingSend = some unregisteredError ∧
    (sendPushNotification tokenGone 200 sampleUser sampleNotification.payload
      sampleWorld).1 = .ok () ∧
    getDoc (sendPushNotification tokenGone 200 sampleUser sampleNotification.payload
      sampleWorld).2.users "u1" = some { sampleUser with fcmToken := Option.none } ∧
    (sendPushNotification tokenGone 200 sampleUser sampleNotification.payload
      sampleWorld).2.in_app_notifications =
        sampleWorld.in_app_notifications ++
          [inAppRecord 200 (some "u1") sampleNotification.payload
            sampleNotification.payload.eventId] :=
  ⟨rfl, rfl, rfl,
   (push_transport_error tokenGone 200 "u1" sampleUser sampleNotification.payload sampleWorld
      "tok" unregisteredError rfl rfl (by decide) rfl).2.1 (Or.inr rfl) rfl rfl rfl⟩

/-- C7, counterexample: the transport reports an unregistered token and the
token-clearing update rejects; `sendPushNotification` rejects with the store
error and creates no in-app record. -/
theorem token_clearing_failure_blocks_fallback :
    (sendPushNotification tokenGoneUpdateDown 200 sampleUser sampleNotification.payload
        sampleWorld).1 = .error storeError ∧
    (sendPushNotification tokenGoneUpdateDown 200 sampleUser sampleNotification.payload
        sampleWorld).2.in_app_notifications = [] := by
  refine ⟨?_, ?_⟩ <;> rfl

/-- C7, amended: token clearing is not best-effort.  When the push transport
reports an invalid or unregistered token and the store rejects the
token-clearing update with `e`, `sendPushNotification` rejects (with `e` itself
when the recipient data has an `id`), creates no in-app record and leaves the
users collection as it was. -/
theorem token_clearing_failure_propagates (f : Faults) (now : Timestamp) (recipient : User)
    (payload : Payload) (w : World) (token : String) (error e : JsError)
    (htok : recipient.fcmToken = some token) (hne : token ≠ "")
    (herr : f.messagingSend = some error)
    (hcode : error.code = some "messaging/invalid-registration-token" ∨
        error.code = some "messaging/registration-token-not-registered")
    (hupd : f.usersUpdate = some e) :
    (∃ e1, (sendPushNotification f now recipient payload w).1 = .error e1) ∧
    (recipient.id ≠ Option.none →
      (sendPushNotification f now recipient payload w).1 = .error e) ∧
    (sendPushNotification f now recipient payload w).2.in_app_notifications =
      w.in_app_notifications ∧
    (sendPushNotification f now recipient payload w).2.users = w.users := by
  rw [sendPush_token f now recipient payload w token htok hne, herr]
  simp only
  rw [(isTokenError_iff error).mpr hcode, if_pos rfl]
  have hc := clearToken_fault f recipient.id
    { w with pushed := w.pushed ++ [pushMessage token payload] } e hupd
  obtain ⟨⟨e1, he1⟩, hsome⟩ := hc
  refine ⟨⟨e1, by rw [he1]⟩, ?_, by rw [he1], by rw [he1]⟩
  intro hid
  rw [hsome hid]

/-- C7 amended, at a concrete input: the sample user, an unregistered token and
a rejected token-clearing update. -/
theorem token_clearing_failure_propagates_witness :
    tokenGoneUpdateDown.usersUpdate = some storeError ∧
    (sendPushNotification tokenGoneUpdateDown 200 sampleUser sampleNotification.payload
      sampleWorld).1 = .error storeError ∧
    (sendPushNotification tokenGoneUpdateDown 200 sampleUser sampleNotification.payload
      sampleWorld).2.users = sampleWorld.users :=
  ⟨rfl,
   (token_clearing_failure_propagates tokenGoneUpdateDown 200 sampleUser
      sampleNotification.payload sampleWorld "tok" unregisteredError storeError rfl
      (by decide) rfl (Or.inr rfl) rfl).2.1 (by decide),
   (token_clearing_failure_propagates tokenGoneUpdateDown 200 sampleUser
      sampleNotification.payload sampleWorld "tok" unregisteredError storeError rfl
      (by decide) rfl (Or.inr rfl) rfl).2.2.2⟩

/-- C8: with document ids unique and no store fault, `cleanupOldNotifications`
returns `cleaned` equal to the number of selected records; the selection has at
most 500 records, all distinct, each with status `sent`, `failed` or `cancelled`
(so never `scheduled`) and `updatedAt` more than thirty days before `now`; the
records missing afterwards are exactly the selected ones, every other record is
still there unchanged, and the collection shrinks by exactly `cleaned`.  When
the batch commit rejects, nothing is deleted. -/
theorem cleanup_deletes_only_expired (now : Timestamp) (w : World)
    (hnd : (w.scheduled_notifications.map Prod.fst).Nodup) :
    (cleanupOldNotifications Option.none Option.none now w).1 =
      .ok { cleaned := (expiredQuery now w).length } ∧
    (expiredQuery now w).length ≤ 500 ∧
    (expiredQuery now w).Nodup ∧
    (∀ d ∈ expiredQuery now w,
      (d.2.status = "sent" ∨ d.2.status = "failed" ∨ d.2.status = "cancelled") ∧
      (∃ t, d.2.updatedAt = some t ∧ t + thirtyDays < now) ∧
      d.2.status ≠ "scheduled") ∧
    (∀ d, d ∈ expiredQuery now w ↔
      (d ∈ w.scheduled_notifications ∧
       d ∉ (cleanupOldNotifications Option.none Option.none now w).2.scheduled_notifications)) ∧
    (∀ d, d ∈ w.scheduled_notifications → d ∉ expiredQuery now w →
      d ∈ (cleanupOldNotifications Option.none Option.none now w).2.scheduled_notifications) ∧
    (cleanupOldNotifications Option.none Option.none now w).2.scheduled_notifications.Sublist
      w.scheduled_notifications ∧
    (cleanupOldNotifications Option.none Option.none now w).2.scheduled_notifications.length +
      (expiredQuery now w).length = w.scheduled_notifications.length ∧
    (∀ e, cleanupOldNotifications Option.none (some e) now w = (.error e, w)) := by
  have hsub := expiredQuery_sublist now w
  have hmem := mem_after_delete w.scheduled_notifications (expiredQuery now w) hnd
    (fun s hs => hsub.subset hs)
  refine ⟨rfl, ?_, ?_, ?_, ?_, ?_, ?_, ?_, fun _ => rfl⟩
  · exact List.length_take_le _ _
  · exact List.Nodup.sublist hsub (List.Nodup.of_map _ hnd)
  · intro d hd
    have h := isExpired_spec now d.2 (mem_expiredQuery now w d hd).2
    refine ⟨h.1, h.2, ?_⟩
    rcases h.1 with h1 | h1 | h1 <;> rw [h1] <;> decide
  · intro d
    show d ∈ expiredQuery now w ↔ (d ∈ w.scheduled_notifications ∧
      d ∉ (w.scheduled_notifications.filter fun d =>
        !((expiredQuery now w).any fun s => decide (s.1 = d.1))))
    rw [hmem d]
    constructor
    · intro hd
      exact ⟨hsub.subset hd, fun h => h.2 hd⟩
    · rintro ⟨hd, hn⟩
      by_contra hc
      exact hn ⟨hd, hc⟩
  · intro d hd hn
    exact (hmem d).mpr ⟨hd, hn⟩
  · exact List.filter_sublist _
  · exact length_after_delete _ _ hnd hsub

/-- C8, at a concrete input: of an expired `sent` record, an equally old
`scheduled` record and a recent `failed` record, only the first is deleted. -/
theorem cleanup_deletes_only_expired_witness :
    (cleanupWorld.scheduled_notifications.map Prod.fst).Nodup ∧
    (cleanupOldNotifications Option.none Option.none cleanupNow cleanupWorld).1 =
      .ok { cleaned := 1 } ∧
    (cleanupOldNotifications Option.none Option.none cleanupNow
      cleanupWorld).2.scheduled_notifications.length + 1 = 3 :=
  ⟨by decide,
   (cleanup_deletes_only_expired cleanupNow cleanupWorld (by decide)).1,
   (cleanup_deletes_only_expired cleanupNow cleanupWorld (by decide)).2.2.2.2.2.2.2.1⟩


/-- C9: `processScheduledNotifications` selects at most 50 records, each of
status `scheduled` with `scheduledFor <= now`.  With an empty selection it returns
`processed: 0` and leaves the store as it was.  Otherwise it resolves, whatever
the runs do, with `processed` the number selected, `succeeded` the number of
selected records whose own run resolves and `failed` the number whose own run
rejects, which add up to `processed`.  The settled results pair each selected
id, once and in order, with the outcome that record's run has on the store as
the invocation found it; under any other oracles for the other records a
record's settled outcome is the same, so no run's failure changes another's
outcome.  Afterwards each selected record is as its own run leaves it and every
other record is as it was.  A run rejects exactly when its `try` block does. -/
theorem batch_accounting (fs : String → Faults) (now : Timestamp) (w : World)
    (hnd : (w.scheduled_notifications.map Prod.fst).Nodup) :
    (dueQuery now w).length ≤ 50 ∧
    (∀ d ∈ dueQuery now w, d ∈ w.scheduled_notifications ∧ d.2.status = "scheduled" ∧
      ∃ t, d.2.scheduledFor = some t ∧ t ≤ now) ∧
    (dueQuery now w = [] →
      processScheduledNotifications Option.none fs now w =
        (.ok { processed := 0, succeeded := Option.none, failed := Option.none }, w)) ∧
    (dueQuery now w ≠ [] →
      (processScheduledNotifications Option.none fs now w).1 =
        .ok { processed := (dueQuery now w).length,
              succeeded := some (((dueQuery now w).map fun d =>
                (d.1, (processNotification (fs d.1) now d.1 d.2 w).1)).filter
                  isFulfilled).length,
              failed := some (((dueQuery now w).map fun d =>
                (d.1, (processNotification (fs d.1) now d.1 d.2 w).1)).filter
                  isRejected).length }) ∧
    (((dueQuery now w).map fun d =>
        (d.1, (processNotification (fs d.1) now d.1 d.2 w).1)).filter isFulfilled).length +
      (((dueQuery now w).map fun d =>
        (d.1, (processNotification (fs d.1) now d.1 d.2 w).1)).filter isRejected).length =
        (dueQuery now w).length ∧
    (processAll fs now w (dueQuery now w) w).1 =
      (dueQuery now w).map (fun d => (d.1, (processNotification (fs d.1) now d.1 d.2 w).1)) ∧
    (∀ d ∈ dueQuery now w,
      getDoc (processScheduledNotifications Option.none fs now w).2.scheduled_notifications d.1 =
        getDoc (processNotification (fs d.1) now d.1 d.2 w).2.scheduled_notifications d.1) ∧
    (∀ k, k ∉ (dueQuery now w).map Prod.fst →
      getDoc (processScheduledNotifications Option.none fs now w).2.scheduled_notifications k =
        getDoc w.scheduled_notifications k) ∧
    (∀ (fs1 : String → Faults) (d : String × Notification), d ∈ dueQuery now w →
      fs1 d.1 = fs d.1 →
      (d.1, (processNotification (fs d.1) now d.1 d.2 w).1) ∈
        (processAll fs1 now w (dueQuery now w) w).1) ∧
    (∀ f id data w1, (∃ e, (processNotification f now id data w1).1 = .error e) ↔
      (∃ e, (processNotificationTry f now id data w1).1 = .error e)) := by
  have hres := (processAll_results fs now w (dueQuery now w) w (sameDocs_refl w)).1
  have hw : (processScheduledNotifications Option.none fs now w).2 =
      (processAll fs now w (dueQuery now w) w).2 := by
    unfold processScheduledNotifications
    cases hq : dueQuery now w with
    | nil => rfl
    | cons d rest => rfl
  have hsel : ((dueQuery now w).map Prod.fst).Nodup :=
    List.Nodup.sublist ((dueQuery_sublist now w).map Prod.fst) hnd
  refine ⟨List.length_take_le _ _, ?_, ?_, ?_, ?_, hres, ?_, ?_, ?_, ?_⟩
  · intro d hd
    have h := mem_dueQuery now w d hd
    exact ⟨h.1, isDue_status now d.2 h.2⟩
  · intro h
    simp [processScheduledNotifications, h]
  · intro h
    rw [← hres]
    simp [processScheduledNotifications, h]
  · rw [settled_partition]
    simp
  · intro d hd
    rw [hw]
    exact processAll_records fs now w (dueQuery now w) hsel w (sameDocs_refl w)
      (fun _ _ => rfl) d hd
  · intro k hk
    rw [hw]
    exact processAll_untouched fs now w (dueQuery now w) k hk w
  · intro fs1 d hd hfs
    rw [(processAll_results fs1 now w (dueQuery now w) w (sameDocs_refl w)).1]
    exact List.mem_map.mpr ⟨d, hd, by rw [hfs]⟩
  · intro f id data w1
    exact processNotification_ok_iff f now id data w1

/-- C9, at a concrete input: two due push notifications for one user.  For `n1`
the transport reports an unregistered token and the in-app write is rejected;
`n2`, started with the token still in place, meets a transport error.  Both runs
reject. -/
theorem batch_accounting_witness :
    (sharedUserWorld.scheduled_notifications.map Prod.fst).Nodup ∧
    (processScheduledNotifications Option.none sharedUserFaults 200 sharedUserWorld).1 =
      .ok { processed := 2, succeeded := some 0, failed := some 2 } :=
  ⟨by decide,
   (batch_accounting sharedUserFaults 200 sharedUserWorld (by decide)).2.2.2.1
     (by decide)⟩

/-- C10: in `processNotification` with the recipient document found, for channel
`push` the in-app collection is left as it was or grows by one record whose
`userId` is the `id` field of the recipient data and whose `eventId` is
`payload.eventId`, and the users collection is left as it was or has the token
deleted in the document named by that `id` field; both fallback paths do write
that record when the store accepts the writes.  So the fallback record is
addressed to `recipientId` exactly when the recipient data has `id` equal to
`recipientId`.  For channel `in_app` the record written has
`userId = recipientId` and the top-level `eventId`. -/
theorem fallback_addressed_by_data_id (f : Faults) (now : Timestamp) (id : String)
    (data : Notification) (recipient : User) (w : World)
    (hget : f.usersGet = Option.none)
    (hrec : getDoc w.users data.recipientId = some recipient) :
    (data.channel = "push" →
      ((processNotification f now id data w).2.in_app_notifications =
          w.in_app_notifications ∨
        (processNotification f now id data w).2.in_app_notifications =
          w.in_app_notifications ++
            [inAppRecord now recipient.id data.payload data.payload.eventId]) ∧
      ((processNotification f now id data w).2.users = w.users ∨
        ∃ u, recipient.id = some u ∧ (processNotification f now id data w).2.users =
          (w.users.map fun d => if d.1 = u then (d.1, deleteToken d.2) else d)) ∧
      ((recipient.fcmToken = Option.none ∨ recipient.fcmToken = some "") →
        f.inAppAdd = Option.none →
        (processNotification f now id data w).2.in_app_notifications =
          w.in_app_notifications ++
            [inAppRecord now recipient.id data.payload data.payload.eventId]) ∧
      (∀ token e u ru, recipient.fcmToken = some token → token ≠ "" →
        f.messagingSend = some e → isTokenError e = true → recipient.id = some u →
        getDoc w.users u = some ru → f.usersUpdate = Option.none →
        f.inAppAdd = Option.none →
        (processNotification f now id data w).2.in_app_notifications =
          w.in_app_notifications ++
            [inAppRecord now (some u) data.payload data.payload.eventId] ∧
        (processNotification f now id data w).2.users =
          (w.users.map fun d => if d.1 = u then (d.1, deleteToken d.2) else d))) ∧
    ((inAppRecord now recipient.id data.payload data.payload.eventId).userId =
        some data.recipientId ↔ recipient.id = some data.recipientId) ∧
    (inAppRecord now recipient.id data.payload data.payload.eventId).eventId =
      data.payload.eventId ∧
    (data.channel = "in_app" → f.inAppAdd = Option.none →
      (processNotification f now id data w).2.in_app_notifications =
        w.in_app_notifications ++
          [inAppRecord now (some data.recipientId) data.payload data.eventId] ∧
      (inAppRecord now (some data.recipientId) data.payload data.eventId).userId =
        some data.recipientId) := by
  have hfr := processNotification_frame f now id data recipient w hget hrec
  refine ⟨?_, Iff.rfl, rfl, ?_⟩
  · intro hch
    rw [hfr.1, hfr.2.1, dispatch_push f now data recipient w hch]
    have hc := sendPush_cases f now recipient data.payload w
    refine ⟨hc.1, hc.2, ?_, ?_⟩
    · intro htok hadd
      rw [sendPush_no_token f now recipient data.payload w htok,
        sendInApp_ok _ _ _ _ _ _ hadd]
    · intro token e u ru htok hne herr hte hid hu hupd hadd
      rw [sendPush_token f now recipient data.payload w token htok hne, herr]
      simp only
      rw [hte, if_pos rfl, hid,
        clearToken_ok f u ru { w with pushed := w.pushed ++ [pushMessage token data.payload] }
          hupd hu]
      simp only
      rw [sendInApp_ok _ _ _ _ _ _ hadd]
      exact ⟨rfl, rfl⟩
  · intro hch hadd
    rw [hfr.2.1, dispatch_in_app f now data recipient w hch, sendInApp_ok _ _ _ _ _ _ hadd]
    exact ⟨rfl, rfl⟩

/-- C10, at a concrete input: a push notification for document `u1`, whose data
has `id = "u9"` and no token, yields an in-app record addressed to `u9`. -/
theorem fallback_addressed_by_data_id_witness :
    getDoc otherIdWorld.users sampleNotification.recipientId = some sampleUserOtherId ∧
    (processNotification Faults.none 200 "n1" sampleNotification
      otherIdWorld).2.in_app_notifications =
      [inAppRecord 200 (some "u9") sampleNotification.payload (some "e1")] ∧
    ((inAppRecord 200 sampleUserOtherId.id sampleNotification.payload
        sampleNotification.payload.eventId).userId = some sampleNotification.recipientId ↔
      sampleUserOtherId.id = some sampleNotification.recipientId) :=
  ⟨rfl,
   ((fallback_addressed_by_data_id Faults.none 200 "n1" sampleNotification sampleUserOtherId
      otherIdWorld rfl rfl).1 rfl).2.2.1 (Or.inl rfl) rfl,
   (fallback_addressed_by_data_id Faults.none 200 "n1" sampleNotification sampleUserOtherId
      otherIdWorld rfl rfl).2.1⟩

end EventCalendar
